import Mathlib

/-
  Verification of the data-cleaning core of the MultinationalRetailDataCentralisation
  repository (src/data_cleaning.py).

  Shallow embedding: a pandas DataFrame is modelled as a column-name list together
  with a list of rows; each row carries its index label (a Cell) and an association
  list from column name to cell value.  A cell is a dynamically typed value
  (null / string / rational number / boolean / date), where Cell.null stands for
  all of NaN / NaT / None and rational numbers stand for Python floats (the
  cleaning code only performs exact decimal arithmetic on them).
-/

/-- A dynamically typed DataFrame cell.  null models NaN/NaT/None. -/
inductive Cell where
  | null : Cell
  | str (s : String) : Cell
  | num (q : ℚ) : Cell
  | bool (b : Bool) : Cell
  | date (y m d : ℕ) : Cell
deriving DecidableEq, Repr

/-- A row: association list from column name to cell value. -/
abbrev Row := List (String × Cell)

/-- Look a column up in a row; a missing column reads as null (the pipelines are
only applied under hypotheses that make every accessed column present). -/
def Row.get (r : Row) (c : String) : Cell :=
  match r.find? (fun p => p.1 = c) with
  | some p => p.2
  | none => Cell.null

/-- Assignment df[c] = v for one row: overwrite the column where present,
append it otherwise (pandas creates absent columns on assignment). -/
def Row.set (r : Row) (c : String) (v : Cell) : Row :=
  if r.any (fun p => p.1 = c) then
    r.map (fun p => if p.1 = c then (p.1, v) else p)
  else
    r ++ [(c, v)]

/-- Does the row carry the column? -/
def Row.has (r : Row) (c : String) : Bool :=
  r.any (fun p => p.1 = c)

/-- Remove a column from a row (set_index removes the promoted column). -/
def Row.removeCol (r : Row) (c : String) : Row :=
  r.filter (fun p => p.1 ≠ c)

/-- Rename a column inside a row. -/
def Row.renameCol (r : Row) (a b : String) : Row :=
  r.map (fun p => if p.1 = a then (b, p.2) else p)

/-- True when no cell of the row is null (the row survives dropna). -/
def Row.noNull (r : Row) : Bool :=
  r.all (fun p => p.2 ≠ Cell.null)

/-- A DataFrame: the column list plus rows, each row paired with its index label. -/
structure DF where
  cols : List String
  rows : List (Cell × Row)
deriving DecidableEq, Repr

/-- Map a function over every data cell of the frame (index labels untouched,
exactly as pandas DataFrame.replace leaves the index alone). -/
def DF.mapCells (df : DF) (f : Cell → Cell) : DF :=
  { df with rows := df.rows.map (fun p => (p.1, p.2.map (fun q => (q.1, f q.2)))) }

/-- df.replace(a, b): replace one cell value by another everywhere. -/
def DF.replaceVal (df : DF) (a b : Cell) : DF :=
  df.mapCells (fun c => if c = a then b else c)

/-- Keep-first removal of rows duplicating an earlier row's data cells, with
the data cells of the rows already kept as the accumulator (pandas
drop_duplicates compares the columns only, never the index). -/
def dropDupAux : List (Cell × Row) → List Row → List (Cell × Row)
  | [], _ => []
  | p :: ps, seen =>
      if p.2 ∈ seen then dropDupAux ps seen
      else p :: dropDupAux ps (p.2 :: seen)

/-- df.drop_duplicates() on the row list. -/
def dropDupRows (l : List (Cell × Row)) : List (Cell × Row) :=
  dropDupAux l []

/-- df.drop_duplicates(). -/
def DF.dropDups (df : DF) : DF :=
  { df with rows := dropDupRows df.rows }

/-- df.dropna(): remove every row containing a null cell. -/
def DF.dropna (df : DF) : DF :=
  { df with rows := df.rows.filter (fun p => p.2.noNull) }

/-- df.set_index(k): promote column k to the index (k assumed in df.cols by the
caller, which guards the call). -/
def DF.setIndexCol (df : DF) (k : String) : DF :=
  { cols := df.cols.erase k
    rows := df.rows.map (fun p => (p.2.get k, p.2.removeCol k)) }

/-- df.drop(columns=c) with errors ignored: total removal of a column. -/
def DF.dropCol (df : DF) (c : String) : DF :=
  { cols := df.cols.erase c
    rows := df.rows.map (fun p => (p.1, p.2.removeCol c)) }

/-- df.rename(columns={a: b}). -/
def DF.renameCol (df : DF) (a b : String) : DF :=
  { cols := df.cols.map (fun c => if c = a then b else c)
    rows := df.rows.map (fun p => (p.1, p.2.renameCol a b)) }

/-- df[c] = df[c].apply(f) (also creating the column when absent, as pandas
assignment does). -/
def DF.mapCol (df : DF) (c : String) (f : Cell → Cell) : DF :=
  { cols := if c ∈ df.cols then df.cols else df.cols ++ [c]
    rows := df.rows.map (fun p => (p.1, p.2.set c (f (p.2.get c)))) }

/-- Row-wise conditional mutation (the df.loc[cond, col] = v idiom). -/
def DF.mapRows (df : DF) (f : Row → Row) : DF :=
  { df with rows := df.rows.map (fun p => (p.1, f p.2)) }

/-- df[c] = g(row) for every row, creating column c (np.select / np.where
column assignments). -/
def DF.addColByRow (df : DF) (c : String) (g : Row → Cell) : DF :=
  { cols := if c ∈ df.cols then df.cols else df.cols ++ [c]
    rows := df.rows.map (fun p => (p.1, p.2.set c (g p.2))) }

/-- df[pred]: boolean-mask row filtering. -/
def DF.filterRows (df : DF) (p : Row → Bool) : DF :=
  { df with rows := df.rows.filter (fun q => p q.2) }

/-- One cell of the NULL-string replacement: the literal string "NULL" becomes
a proper null marker, everything else is untouched. -/
def replaceNULLCell (c : Cell) : Cell :=
  if c = Cell.str "NULL" then Cell.null else c

/-- df.replace("NULL", np.nan). -/
def DF.replaceNULL (df : DF) : DF :=
  df.mapCells replaceNULLCell

/-- DataCleaning._clean_dataframe: replace "NULL" strings by null, drop
duplicate rows, drop rows containing nulls, then promote the key column to the
index when a key is given, is nonempty (Python truthiness of the string) and
is among the columns. -/
def clean_dataframe (df : DF) (key : Option String) : DF :=
  let d3 := df.replaceNULL.dropDups.dropna
  match key with
  | none => d3
  | some k => if k ≠ "" ∧ k ∈ d3.cols then d3.setIndexCol k else d3

/-
  A small regular-expression engine (Brzozowski derivatives), used to embed the
  phone-number and UUID-shape regexes of data_cleaning.py.  Character classes
  are predicates; matching is over lists of characters.
-/

/-- Regular expressions over characters. -/
inductive RE where
  | emp : RE
  | eps : RE
  | cls (p : Char → Bool) : RE
  | cat (a b : RE) : RE
  | alt (a b : RE) : RE
  | star (a : RE) : RE

/-- Smart sequencing (keeps derivative terms small). -/
def RE.mkCat : RE → RE → RE
  | RE.emp, _ => RE.emp
  | _, RE.emp => RE.emp
  | RE.eps, b => b
  | a, RE.eps => a
  | a, b => RE.cat a b

/-- Smart alternation (keeps derivative terms small). -/
def RE.mkAlt : RE → RE → RE
  | RE.emp, b => b
  | a, RE.emp => a
  | a, b => RE.alt a b

/-- Does the regex accept the empty string? -/
def RE.nullable : RE → Bool
  | RE.emp => false
  | RE.eps => true
  | RE.cls _ => false
  | RE.cat a b => a.nullable && b.nullable
  | RE.alt a b => a.nullable || b.nullable
  | RE.star _ => true

/-- Brzozowski derivative with respect to one character. -/
def RE.deriv : RE → Char → RE
  | RE.emp, _ => RE.emp
  | RE.eps, _ => RE.emp
  | RE.cls p, c => if p c then RE.eps else RE.emp
  | RE.cat a b, c =>
      if a.nullable then RE.mkAlt (RE.mkCat (a.deriv c) b) (b.deriv c)
      else RE.mkCat (a.deriv c) b
  | RE.alt a b, c => RE.mkAlt (a.deriv c) (b.deriv c)
  | RE.star a, c => RE.mkCat (a.deriv c) (RE.star a)

/-- Full match of a character list. -/
def RE.matchList (r : RE) : List Char → Bool
  | [] => r.nullable
  | c :: cs => (r.deriv c).matchList cs

/-- Python re.match semantics: some prefix of the text (starting at position 0)
matches the pattern. -/
def RE.matchStart (r : RE) : List Char → Bool
  | [] => r.nullable
  | c :: cs => r.nullable || (r.deriv c).matchStart cs

/-- re.match(r, s) as a Boolean over strings. -/
def reMatch (r : RE) (s : String) : Bool :=
  r.matchStart s.data

/-- Full-string match (for ^...$-anchored patterns). -/
def reFull (r : RE) (s : String) : Bool :=
  r.matchList s.data

/-- One literal character. -/
def RE.chr (c : Char) : RE :=
  RE.cls (fun d => d = c)

/-- r? -/
def RE.opt (r : RE) : RE :=
  RE.alt RE.eps r

/-- r+ -/
def RE.plus (r : RE) : RE :=
  RE.cat r (RE.star r)

/-- r{n}: exactly n copies. -/
def RE.rep (r : RE) : ℕ → RE
  | 0 => RE.eps
  | n + 1 => RE.cat r (RE.rep r n)

/-- r{lo,hi}: between lo and hi copies. -/
def RE.repRange (r : RE) (lo hi : ℕ) : RE :=
  RE.cat (RE.rep r lo) (RE.rep r.opt (hi - lo))

/-- r{lo,}: at least lo copies. -/
def RE.repAtLeast (r : RE) (lo : ℕ) : RE :=
  RE.cat (RE.rep r lo) (RE.star r)

/-- Sequence a list of regexes. -/
def RE.cats : List RE → RE
  | [] => RE.eps
  | r :: rs => RE.cat r (RE.cats rs)

/-- \d -/
def RE.digit : RE :=
  RE.cls Char.isDigit

/-- \s (ASCII whitespace suffices for the phone patterns). -/
def RE.space : RE :=
  RE.cls (fun c => c = ' ' ∨ c = '\t' ∨ c = '\n' ∨ c = '\r')

/-- [0-9a-fA-F] -/
def RE.hexd : RE :=
  RE.cls (fun c => c.isDigit ∨ ('a' ≤ c ∧ c ≤ 'f') ∨ ('A' ≤ c ∧ c ≤ 'F'))

/-
  The three phone-number regexes of clean_user_data, transcribed from the
  source.  The UK pattern is ^(?:A$|B|C)$-anchored, so re.match on it amounts
  to a full-string match of A|B|C; the DE and US patterns are unanchored, so
  re.match on them is a prefix match.
-/

/-- +44\s?\(0\)\s?\d{2,4} -/
def ukIntlPre : RE :=
  RE.cats [RE.chr '+', RE.chr '4', RE.chr '4', RE.space.opt, RE.chr '(',
    RE.chr '0', RE.chr ')', RE.space.opt, RE.digit.repRange 2 4]

/-- \(?\d{2,5}\)? -/
def ukLocalPre : RE :=
  RE.cats [(RE.chr '(').opt, RE.digit.repRange 2 5, (RE.chr ')').opt]

/-- (?:+44\s?\(0\)\s?\d{2,4}|\(?\d{2,5}\)?)\s?\d{3,4}\s?\d{3,4} -/
def ukAltA : RE :=
  RE.cats [RE.alt ukIntlPre ukLocalPre, RE.space.opt, RE.digit.repRange 3 4,
    RE.space.opt, RE.digit.repRange 3 4]

/-- \d{10,11} -/
def ukAltB : RE :=
  RE.digit.repRange 10 11

/-- +44\s?\d{2,5}\s?\d{3,4}\s?\d{3,4} -/
def ukAltC : RE :=
  RE.cats [RE.chr '+', RE.chr '4', RE.chr '4', RE.space.opt,
    RE.digit.repRange 2 5, RE.space.opt, RE.digit.repRange 3 4,
    RE.space.opt, RE.digit.repRange 3 4]

/-- The whole ^(?:A$|B|C)$ UK pattern, as the full-match core A|B|C. -/
def ukRE : RE :=
  RE.alt ukAltA (RE.alt ukAltB ukAltC)

/-- [\d \-\)\–\+\/\(] (the DE pattern's inner character class). -/
def deCls1 : RE :=
  RE.cls (fun c => c.isDigit ∨ c = ' ' ∨ c = '-' ∨ c = ')' ∨ c = '–' ∨
    c = '+' ∨ c = '/' ∨ c = '(')

/-- [ .\-–\/] (the DE pattern's separator class). -/
def deCls2 : RE :=
  RE.cls (fun c => c = ' ' ∨ c = '.' ∨ c = '-' ∨ c = '–' ∨ c = '/')

/-- (\(?([\d \-\)\–\+\/\(]+){6,}\)?([ .\-–\/]?)([\d]+)) -/
def deRE : RE :=
  RE.cats [(RE.chr '(').opt, deCls1.plus.repAtLeast 6, (RE.chr ')').opt,
    deCls2.opt, RE.digit.plus]

/-- \(?\d{3}\)?-? *\d{3}-? *-?\d{4} -/
def usRE : RE :=
  RE.cats [(RE.chr '(').opt, RE.digit.rep 3, (RE.chr ')').opt,
    (RE.chr '-').opt, (RE.chr ' ').star, RE.digit.rep 3, (RE.chr '-').opt,
    (RE.chr ' ').star, (RE.chr '-').opt, RE.digit.rep 4]

/-- ^[0-9a-fA-F]{8}-[0-9a-fA-F]{4}-[0-9a-fA-F]{4}-[0-9a-fA-F]{4}-[0-9a-fA-F]{12}$
(the loose UUID-shape pattern of clean_products_data; between its ^ and $
anchors, re.match on it is a full-string match). -/
def uuidShapeRE : RE :=
  RE.cats [RE.hexd.rep 8, RE.chr '-', RE.hexd.rep 4, RE.chr '-',
    RE.hexd.rep 4, RE.chr '-', RE.hexd.rep 4, RE.chr '-', RE.hexd.rep 12]

/-- Python str() of a cell, as produced by .astype(str)/str(x) on the values
the pipelines feed it (NaN prints "nan"; dates print ISO; the rational print
of numbers is a stand-in for Python float repr, never examined by a claim). -/
def Cell.pyStr : Cell → String
  | Cell.null => "nan"
  | Cell.str s => s
  | Cell.num q => toString q
  | Cell.bool b => if b then "True" else "False"
  | Cell.date y m d =>
      let pad2 := fun (n : ℕ) => if n < 10 then "0" ++ toString n else toString n
      toString y ++ "-" ++ pad2 m ++ "-" ++ pad2 d

/-- Is the pattern a prefix of the text? -/
def listStartsWith : List Char → List Char → Bool
  | [], _ => true
  | _ :: _, [] => false
  | p :: ps, c :: cs => p = c && listStartsWith ps cs

/-- Does the text contain the pattern as a contiguous substring?  (Python's
"pat in s".) -/
def listHasSub (p : List Char) : List Char → Bool
  | [] => listStartsWith p []
  | c :: cs => listStartsWith p (c :: cs) || listHasSub p cs

/-- "pat in s" over strings. -/
def strContains (s pat : String) : Bool :=
  listHasSub pat.data s.data

/-- Left-to-right non-overlapping replacement of a nonempty pattern, with fuel
(always run with fuel = text length, which each step strictly consumes).
Models Python str.replace for the nonempty patterns the source uses. -/
def replaceListFuel (pat rep : List Char) : ℕ → List Char → List Char
  | _, [] => []
  | 0, l => l
  | n + 1, c :: cs =>
      if pat ≠ [] ∧ listStartsWith pat (c :: cs) then
        rep ++ replaceListFuel pat rep n (cs.drop (pat.length - 1))
      else c :: replaceListFuel pat rep n cs

/-- Python s.replace(pat, rep) for a nonempty pattern. -/
def strReplace (s pat rep : String) : String :=
  ⟨replaceListFuel pat.data rep.data s.data.length s.data⟩

/-- Python s.split("x"): split at every occurrence of the character x. -/
def splitOnX : List Char → List (List Char)
  | [] => [[]]
  | c :: cs =>
      if c = 'x' then [] :: splitOnX cs
      else
        match splitOnX cs with
        | [] => [[c]]
        | h :: t => (c :: h) :: t

/-- The numeric value of a digit run. -/
def digitsVal (l : List Char) : ℚ :=
  l.foldl (fun a c => a * 10 + ((c.toNat : ℚ) - 48)) 0

/-- Split a leading digit run off a character list. -/
def takeDigits (l : List Char) : List Char × List Char :=
  (l.takeWhile Char.isDigit, l.dropWhile Char.isDigit)

/-- First match of the regex (\d+(\.\d+)?) in the text, as a rational:
the first digit run, extended by a fractional part when a dot followed by at
least one digit follows it (re.findall scans left to right). -/
def firstDecimalList : List Char → Option ℚ
  | [] => none
  | c :: cs =>
      if c.isDigit then
        let intRun := takeDigits (c :: cs)
        match intRun.2 with
        | '.' :: r2 =>
            let frRun := takeDigits r2
            if frRun.1 = [] then some (digitsVal intRun.1)
            else some (digitsVal intRun.1 + digitsVal frRun.1 / 10 ^ frRun.1.length)
        | _ => some (digitsVal intRun.1)
      else firstDecimalList cs

/-- First decimal number in a string. -/
def firstDecimal (s : String) : Option ℚ :=
  firstDecimalList s.data

/-- ASCII whitespace test for the strip() model. -/
def isWs (c : Char) : Bool :=
  c = ' ' ∨ c = '\t' ∨ c = '\n' ∨ c = '\r'

/-- Python str.strip(): shed whitespace from both ends. -/
def strStrip (s : String) : String :=
  ⟨((s.data.dropWhile isWs).reverse.dropWhile isWs).reverse⟩

/-- Parse a whole character list as an optionally signed decimal number
(pd.to_numeric on a plain decimal string; anything else coerces to null). -/
def parseDecList (l : List Char) : Option ℚ :=
  let core : List Char → Option ℚ := fun m =>
    match takeDigits m with
    | ([], _) => none
    | (ds, []) => some (digitsVal ds)
    | (ds, '.' :: r2) =>
        match takeDigits r2 with
        | (fs, []) => if fs = [] then none
            else some (digitsVal ds + digitsVal fs / 10 ^ fs.length)
        | _ => none
    | _ => none
  match l with
  | '-' :: rest => (core rest).map Neg.neg
  | '+' :: rest => core rest
  | _ => core l

/-- pd.to_numeric(errors="coerce") on one string. -/
def parseDec (s : String) : Option ℚ :=
  parseDecList s.data

/-- Parse exactly n digits, returning the value and the rest. -/
def parseDigitsN (n : ℕ) (l : List Char) : Option (ℕ × List Char) :=
  let run := l.takeWhile Char.isDigit
  if run.length = n then
    some (run.foldl (fun a c => a * 10 + (c.toNat - 48)) 0, l.dropWhile Char.isDigit)
  else none

/-- Model of pd.to_datetime(errors="coerce") followed by .dt.date, restricted
to the ISO YYYY-MM-DD subset of the mixed formats pandas accepts: a string of
that shape with a plausible month and day parses to a date, anything else
(including non-strings) coerces to null. -/
def to_datetime_coerce (c : Cell) : Cell :=
  match c with
  | Cell.str s =>
      match parseDigitsN 4 s.data with
      | some (y, '-' :: r1) =>
          match parseDigitsN 2 r1 with
          | some (m, '-' :: r2) =>
              match parseDigitsN 2 r2 with
              | some (d, []) =>
                  if 1 ≤ m ∧ m ≤ 12 ∧ 1 ≤ d ∧ d ≤ 31 then Cell.date y m d
                  else Cell.null
              | _ => Cell.null
          | _ => Cell.null
      | _ => Cell.null
  | _ => Cell.null

/-
  Embedding of is_valid_uuid, following CPython's uuid.UUID(hex, version=4):
  strip "urn:"/"uuid:" occurrences, strip surrounding braces, delete hyphens,
  require exactly 32 hex digits, read them as a 128-bit integer, then force
  the RFC-4122 variant bits and the version nibble to 4; str() of the result
  is the canonical lowercase hyphenated form.  A failed parse raises
  ValueError, which is_valid_uuid catches (modelled by Option.none).
-/

/-- Hex digit value (both cases), none for a non-hex character. -/
def hexVal? (c : Char) : Option ℕ :=
  if '0' ≤ c ∧ c ≤ '9' then some (c.toNat - 48)
  else if 'a' ≤ c ∧ c ≤ 'f' then some (c.toNat - 87)
  else if 'A' ≤ c ∧ c ≤ 'F' then some (c.toNat - 55)
  else none

/-- Read a character list as a base-16 natural; none when any character is not
a hex digit (int(s, 16) raising ValueError). -/
def hexNat? : List Char → Option ℕ
  | [] => some 0
  | c :: cs =>
      match hexVal? c, hexNat? cs with
      | some d, some n => some (d * 16 ^ cs.length + n)
      | _, _ => none

/-- Is the character an opening or closing brace? -/
def isBrace (c : Char) : Bool :=
  c = '{' ∨ c = '}'

/-- Python str.strip("{}"): shed braces from both ends. -/
def stripBraces (l : List Char) : List Char :=
  ((l.dropWhile isBrace).reverse.dropWhile isBrace).reverse

/-- uuid.UUID's string preprocessing and 128-bit integer parse; none models
the ValueError raised on a malformed string. -/
def pyUUIDparse (s : String) : Option ℕ :=
  let t0 := (strReplace (strReplace s "urn:" "") "uuid:" "").data
  let t1 := (stripBraces t0).filter (fun c => c ≠ '-')
  if t1.length = 32 then hexNat? t1 else none

/-- int &= ~(0xc000 << 48); int |= 0x8000 << 48; int &= ~(0xf000 << 64);
int |= 4 << 76 — the variant/version forcing uuid.UUID performs when a
version argument is supplied. -/
def forceVersion4 (n : ℕ) : ℕ :=
  let n1 := (n &&& ((2 ^ 128 - 1) ^^^ (0xc000 <<< 48))) ||| (0x8000 <<< 48)
  (n1 &&& ((2 ^ 128 - 1) ^^^ (0xf000 <<< 64))) ||| (4 <<< 76)

/-- Lowercase hex digit character of a value below 16. -/
def hexChar (d : ℕ) : Char :=
  if d < 10 then Char.ofNat (48 + d) else Char.ofNat (87 + d)

/-- The k low hex digits of n, most significant first, zero-padded. -/
def hexDigitsAux : ℕ → ℕ → List Char → List Char
  | 0, _, acc => acc
  | k + 1, n, acc => hexDigitsAux k (n / 16) (hexChar (n % 16) :: acc)

/-- The 32-hex-digit expansion of a 128-bit integer. -/
def hex32 (n : ℕ) : List Char :=
  hexDigitsAux 32 n []

/-- str(uuid_obj): canonical lowercase 8-4-4-4-12 hyphenated form. -/
def uuidStr (n : ℕ) : String :=
  let h := hex32 n
  ⟨h.take 8 ++ '-' :: ((h.drop 8).take 4 ++ '-' :: ((h.drop 12).take 4 ++
    '-' :: ((h.drop 16).take 4 ++ '-' :: h.drop 20)))⟩

/-- The parse-then-reserialize round trip of is_valid_uuid (version forced
to 4), none when the parse fails. -/
def uuidRoundtrip (s : String) : Option String :=
  (pyUUIDparse s).map (fun n => uuidStr (forceVersion4 n))

/-- data_cleaning.is_valid_uuid on a string: the parse must succeed (ValueError
is caught and yields False) and the canonical serialization must equal the
input exactly. -/
def is_valid_uuid (s : String) : Bool :=
  match pyUUIDparse s with
  | none => false
  | some n => uuidStr (forceVersion4 n) = s

/-- is_valid_uuid applied to a raw cell, with Python's exception behaviour:
only ValueError is caught, so a string returns a Boolean, while a numeric,
boolean or date cell raises AttributeError (no .replace method on the value)
and a None cell raises TypeError — neither is caught, so the error escapes the
caller. -/
def is_valid_uuid_cell (c : Cell) : Except String Bool :=
  match c with
  | Cell.str s => Except.ok (is_valid_uuid s)
  | Cell.null => Except.error "TypeError"
  | _ => Except.error "AttributeError"

/-- A row filter whose predicate can raise (Series.apply evaluates row by row
and the first raising row aborts the whole cleaning call). -/
def filterME (p : Row → Except String Bool) : List (Cell × Row) → Except String (List (Cell × Row))
  | [] => Except.ok []
  | q :: qs =>
      match p q.2 with
      | Except.error e => Except.error e
      | Except.ok b =>
          match filterME p qs with
          | Except.error e => Except.error e
          | Except.ok l => Except.ok (if b then q :: l else l)

/-- df[df[c].apply(pred)] where pred may raise. -/
def DF.filterRowsE (df : DF) (p : Row → Except String Bool) : Except String DF :=
  match filterME p df.rows with
  | Except.error e => Except.error e
  | Except.ok l => Except.ok { df with rows := l }

/-- np.round / Series.round: round half to even at the integer scale. -/
def roundHalfEvenZ (x : ℚ) : ℤ :=
  let f := ⌊x⌋
  let r := x - f
  if r < 1 / 2 then f
  else if 1 / 2 < r then f + 1
  else if f % 2 = 0 then f else f + 1

/-- Series.round(k): round half to even at k decimal places. -/
def roundTo (k : ℕ) (q : ℚ) : ℚ :=
  (roundHalfEvenZ (q * 10 ^ k) : ℚ) / 10 ^ k

/-- clean_user_data's GB phone rule: null the phone number when the country
code is GB and str.match of the (fully anchored) UK pattern fails. -/
def phoneStepGB (r : Row) : Row :=
  if r.get "country_code" = Cell.str "GB" ∧ reFull ukRE (r.get "phone_number").pyStr = false
  then r.set "phone_number" Cell.null else r

/-- clean_user_data's DE phone rule (unanchored pattern, prefix match). -/
def phoneStepDE (r : Row) : Row :=
  if r.get "country_code" = Cell.str "DE" ∧ reMatch deRE (r.get "phone_number").pyStr = false
  then r.set "phone_number" Cell.null else r

/-- clean_user_data's US phone rule (unanchored pattern, prefix match). -/
def phoneStepUS (r : Row) : Row :=
  if r.get "country_code" = Cell.str "US" ∧ reMatch usRE (r.get "phone_number").pyStr = false
  then r.set "phone_number" Cell.null else r

/-- DataCleaning.clean_user_data: row-clean with key "index", parse the two
date columns, correct the UK country code, null non-matching phone numbers per
country, filter on is_valid_uuid (which can raise on non-string cells), keep
two-letter country codes, then drop null rows. -/
def clean_user_data (df : DF) : Except String DF :=
  let d1 := clean_dataframe df (some "index")
  let d2 := (d1.mapCol "date_of_birth" to_datetime_coerce).mapCol "join_date" to_datetime_coerce
  let d3 := d2.mapRows (fun r =>
    if r.get "country" = Cell.str "United Kingdom" then r.set "country_code" (Cell.str "GB") else r)
  let d4 := ((d3.mapRows phoneStepGB).mapRows phoneStepDE).mapRows phoneStepUS
  match d4.filterRowsE (fun r => is_valid_uuid_cell (r.get "user_uuid")) with
  | Except.error e => Except.error e
  | Except.ok d5 =>
      let d6 := d5.filterRows (fun r =>
        match r.get "country_code" with
        | Cell.str s => s.length = 2
        | _ => false)
      Except.ok d6.dropna

/-- card_number.str.replace(r"^\?+", ""): shed leading question marks of a
string; the .str accessor turns a non-string cell into null. -/
def cardNumberStrip (c : Cell) : Cell :=
  match c with
  | Cell.str s => Cell.str ⟨s.data.dropWhile (fun ch => ch = '?')⟩
  | _ => Cell.null

/-- DataCleaning.clean_card_data, from the table the CSV read produced:
row-clean with key "Unnamed: 0", parse the payment date, strip leading
question marks from card numbers, drop null rows. -/
def clean_card_data (df : DF) : DF :=
  let d1 := clean_dataframe df (some "Unnamed: 0")
  let d2 := d1.mapCol "date_payment_confirmed" to_datetime_coerce
  let d3 := d2.mapCol "card_number" cardNumberStrip
  d3.dropna

/-- df.iloc[0] = df.iloc[0].fillna("N/A"): fill the first row's nulls with the
sentinel string. -/
def storeFillFirstRow (df : DF) : DF :=
  match df.rows with
  | [] => df
  | p :: ps =>
      { df with rows :=
          (p.1, p.2.map (fun q => (q.1, if q.2 = Cell.null then Cell.str "N/A" else q.2))) :: ps }

/-- staff_numbers.str.extract("(\d+)") then pd.to_numeric(errors="coerce"):
the first digit run of a string, null when there is none or the cell is not a
string. -/
def staffParse (c : Cell) : Cell :=
  match c with
  | Cell.str s =>
      match s.data.dropWhile (fun ch => ¬ ch.isDigit) with
      | [] => Cell.null
      | ch :: rest => Cell.num (digitsVal ((ch :: rest).takeWhile Char.isDigit))
  | _ => Cell.null

/-- DataCleaning.clean_store_data, from the table the CSV read produced: drop
the faulty lat column, fill the first (online-store) row's nulls with "N/A",
row-clean with key "index", null unrecognized country codes, fix the two
misspelled continents, parse staff numbers, parse the opening date, drop null
rows, then turn the "N/A" sentinels back into nulls.  (The latitude/longitude
astype(object) calls change no value and are omitted.) -/
def clean_store_data (df : DF) : DF :=
  let d1 := df.dropCol "lat"
  let d2 := storeFillFirstRow d1
  let d3 := clean_dataframe d2 (some "index")
  let d4 := d3.mapRows (fun r =>
    if r.get "country_code" = Cell.str "DE" ∨ r.get "country_code" = Cell.str "US" ∨
       r.get "country_code" = Cell.str "GB"
    then r else r.set "country_code" Cell.null)
  let d5 := d4.mapRows (fun r =>
    if r.get "continent" = Cell.str "eeEurope" then r.set "continent" (Cell.str "Europe") else r)
  let d6 := d5.mapRows (fun r =>
    if r.get "continent" = Cell.str "eeAmerica" then r.set "continent" (Cell.str "America") else r)
  let d7 := d6.mapCol "staff_numbers" staffParse
  let d8 := d7.mapCol "opening_date" to_datetime_coerce
  let d9 := d8.dropna
  d9.replaceVal (Cell.str "N/A") Cell.null

/-- convert_product_weights' inner convert_to_kg: non-strings give None; a
string containing "x" is split there and the first decimal numbers of the
first two parts are multiplied (a missing number gives None); otherwise the
first decimal number of the text is taken (none gives None); finally the
result is divided by 1000 when the original text contains "g" or "ml" as a
substring.  Note "kg" contains "g", so kg-suffixed strings are divided too. -/
def convert_to_kg (c : Cell) : Option ℚ :=
  match c with
  | Cell.str s =>
      let tw? : Option ℚ :=
        if strContains s "x" then
          match firstDecimalList ((splitOnX s.data).getD 0 []),
                firstDecimalList ((splitOnX s.data).getD 1 []) with
          | some q, some u => some (q * u)
          | _, _ => none
        else firstDecimal s
      match tw? with
      | none => none
      | some t => if strContains s "g" || strContains s "ml" then some (t / 1000) else some t
  | _ => none

/-- DataCleaning.convert_product_weights: derive weight_kg from weight, drop
weight, coerce weight_kg numeric and round it to 5 decimal places. -/
def convert_product_weights (df : DF) : DF :=
  let d1 := df.addColByRow "weight_kg" (fun r =>
    match convert_to_kg (r.get "weight") with
    | some q => Cell.num q
    | none => Cell.null)
  let d2 := d1.dropCol "weight"
  d2.mapCol "weight_kg" (fun c =>
    match c with
    | Cell.num q => Cell.num (roundTo 5 q)
    | _ => Cell.null)

/-- The np.select weight-class rule of clean_products_data: first condition
that holds wins, null (or any non-number, with which every comparison is
False) falls to the "Unknown" default. -/
def weightClass (c : Cell) : String :=
  match c with
  | Cell.num q =>
      if q < 2 then "Light"
      else if 2 ≤ q ∧ q < 40 then "Mid_Sized"
      else if 40 ≤ q ∧ q < 140 then "Heavy"
      else if 140 ≤ q then "Truck_Required"
      else "Unknown"
  | _ => "Unknown"

/-- product_name.str.strip().str.lower(). -/
def nameNormalize (c : Cell) : Cell :=
  match c with
  | Cell.str s => Cell.str ⟨(strStrip s).data.map Char.toLower⟩
  | _ => Cell.null

/-- product_price.str.replace("£","").str.strip(), pd.to_numeric(coerce),
.round(2). -/
def priceParse (c : Cell) : Cell :=
  match c with
  | Cell.str s =>
      match parseDec (strStrip (strReplace s "£" "")) with
      | some q => Cell.num (roundTo 2 q)
      | none => Cell.null
  | _ => Cell.null

/-- np.where(still_available == "Still_avaliable", True, False): a Boolean
cell, True exactly on the misspelled sentinel. -/
def stillAvailConv (c : Cell) : Cell :=
  Cell.bool (c = Cell.str "Still_avaliable")

/-- DataCleaning.clean_products_data: row-clean with key "Unnamed: 0",
normalize the product name, parse the price, rename the three columns, derive
the Boolean still_available, parse date_added, derive weight_class, then keep
rows whose uuid matches the loose UUID-shape regex. -/
def clean_products_data (df : DF) : DF :=
  let d1 := clean_dataframe df (some "Unnamed: 0")
  let d2 := if "product_name" ∈ d1.cols then d1.mapCol "product_name" nameNormalize else d1
  let d3 := if "product_price" ∈ d2.cols then d2.mapCol "product_price" priceParse else d2
  let d4 := ((d3.renameCol "product_price" "product_price_pounds").renameCol
    "removed" "still_available").renameCol "EAN" "ean"
  let d5 := d4.mapCol "still_available" stillAvailConv
  let d6 := d5.mapCol "date_added" to_datetime_coerce
  let d7 := d6.addColByRow "weight_class" (fun r => Cell.str (weightClass (r.get "weight_kg")))
  d7.filterRows (fun r => reFull uuidShapeRE (r.get "uuid").pyStr)

/-- DataCleaning.clean_orders_data: drop the personal-name and stray columns,
row-clean with key "index", filter on is_valid_uuid (which can raise), rename
level_0 to order_id, drop null rows. -/
def clean_orders_data (df : DF) : Except String DF :=
  let d1 := ((df.dropCol "first_name").dropCol "last_name").dropCol "1"
  let d2 := clean_dataframe d1 (some "index")
  match d2.filterRowsE (fun r => is_valid_uuid_cell (r.get "user_uuid")) with
  | Except.error e => Except.error e
  | Except.ok d3 => Except.ok ((d3.renameCol "level_0" "order_id").dropna)

/-- DataCleaning.clean_date_times: row-clean with no key, then keep rows whose
time_period is one of the four named buckets. -/
def clean_date_times (df : DF) : DF :=
  let d1 := clean_dataframe df none
  d1.filterRows (fun r =>
    decide (r.get "time_period" ∈ [Cell.str "Late_Hours", Cell.str "Morning",
      Cell.str "Midday", Cell.str "Evening"]))

/-
  General lemmas about the row and frame operations, shared by the claim
  proofs below.
-/

theorem Row.get_nil (c : String) : Row.get [] c = Cell.null := rfl

theorem Row.get_cons (p : String × Cell) (t : Row) (c : String) :
    Row.get (p :: t) c = if p.1 = c then p.2 else t.get c := by
  by_cases h : p.1 = c <;> simp [Row.get, List.find?, h]

theorem Row.has_cons (p : String × Cell) (t : Row) (c : String) :
    Row.has (p :: t) c = (p.1 = c ∨ t.has c = true) := by
  simp [Row.has, List.any_cons]

theorem Row.get_update_self (r : Row) (c : String) (v : Cell)
    (h : r.any (fun p => p.1 = c) = true) :
    Row.get (r.map (fun p => if p.1 = c then (p.1, v) else p)) c = v := by
  induction r with
  | nil => simp at h
  | cons p t ih =>
      by_cases hp : p.1 = c
      · simp [Row.get_cons, hp]
      · rw [List.any_cons] at h
        simp only [List.map_cons, hp, if_false, Row.get_cons]
        exact ih (by simpa [hp] using h)

theorem Row.get_append_single (r : Row) (c : String) (v : Cell)
    (h : r.any (fun p => p.1 = c) = false) :
    Row.get (r ++ [(c, v)]) c = v := by
  induction r with
  | nil => simp [Row.get_cons]
  | cons p t ih =>
      rw [List.any_cons] at h
      rcases Bool.or_eq_false_iff.mp h with ⟨h1, h2⟩
      have hp : ¬ p.1 = c := of_decide_eq_false h1
      simp only [List.cons_append, Row.get_cons, hp, if_false]
      exact ih h2

theorem Row.get_set_self (r : Row) (c : String) (v : Cell) :
    (r.set c v).get c = v := by
  unfold Row.set
  by_cases h : r.any (fun p => p.1 = c)
  · rw [if_pos h]
    exact Row.get_update_self r c v h
  · rw [if_neg h]
    exact Row.get_append_single r c v (Bool.eq_false_iff.mpr h)

theorem Row.get_map_update_ne (r : Row) (c c' : String) (v : Cell) (h : c' ≠ c) :
    Row.get (r.map (fun p => if p.1 = c then (p.1, v) else p)) c' = r.get c' := by
  have hcc : ¬ c = c' := fun hc => h hc.symm
  induction r with
  | nil => rfl
  | cons p t ih =>
      by_cases hp : p.1 = c
      · simp only [List.map_cons, hp, if_pos, Row.get_cons]
        rw [if_neg hcc, if_neg hcc]
        exact ih
      · simp only [List.map_cons, hp, if_false, Row.get_cons]
        by_cases hp' : p.1 = c'
        · rw [if_pos hp', if_pos hp']
        · rw [if_neg hp', if_neg hp']
          exact ih

theorem Row.get_append_ne (r : Row) (c c' : String) (v : Cell) (h : c' ≠ c) :
    Row.get (r ++ [(c, v)]) c' = r.get c' := by
  have hcc : ¬ c = c' := fun hc => h hc.symm
  induction r with
  | nil => simp [Row.get_cons, hcc, Row.get_nil]
  | cons p t ih =>
      simp only [List.cons_append, Row.get_cons]
      by_cases hp' : p.1 = c'
      · rw [if_pos hp', if_pos hp']
      · rw [if_neg hp', if_neg hp']
        exact ih

theorem Row.get_set_ne (r : Row) (c c' : String) (v : Cell) (h : c' ≠ c) :
    (r.set c v).get c' = r.get c' := by
  unfold Row.set
  by_cases hAny : r.any (fun p => p.1 = c)
  · rw [if_pos hAny]
    exact Row.get_map_update_ne r c c' v h
  · rw [if_neg hAny]
    exact Row.get_append_ne r c c' v h

theorem Row.get_removeCol_ne (r : Row) (c c' : String) (h : c' ≠ c) :
    (r.removeCol c).get c' = r.get c' := by
  induction r with
  | nil => rfl
  | cons p t ih =>
      unfold Row.removeCol at ih ⊢
      by_cases hp : p.1 = c
      · have hp' : ¬ p.1 = c' := by
          rw [hp]
          exact fun hc => h hc.symm
        rw [List.filter_cons_of_neg (by simp [hp])]
        rw [Row.get_cons, if_neg hp']
        exact ih
      · rw [List.filter_cons_of_pos (by simp [hp])]
        rw [Row.get_cons, Row.get_cons]
        by_cases hp' : p.1 = c'
        · rw [if_pos hp', if_pos hp']
        · rw [if_neg hp', if_neg hp']
          exact ih

theorem Row.get_mapPair (r : Row) (c : String) (f : Cell → Cell)
    (hf : f Cell.null = Cell.null) :
    Row.get (r.map (fun q => (q.1, f q.2))) c = f (r.get c) := by
  induction r with
  | nil => simp [Row.get_nil, hf]
  | cons p t ih =>
      simp only [List.map_cons, Row.get_cons]
      by_cases hp : p.1 = c
      · rw [if_pos hp, if_pos hp]
      · rw [if_neg hp, if_neg hp]
        exact ih

theorem Row.has_set_self (r : Row) (c : String) (v : Cell) :
    (r.set c v).has c = true := by
  unfold Row.set Row.has
  by_cases hAny : r.any (fun p => p.1 = c)
  · rw [if_pos hAny]
    induction r with
    | nil => simp at hAny
    | cons p t ih =>
        by_cases hp : p.1 = c
        · simp [hp]
        · rw [List.any_cons] at hAny
          simp only [List.map_cons, hp, if_false, List.any_cons]
          have hT := ih (by simpa [hp] using hAny)
          simp only [hT, Bool.or_true]
  · rw [if_neg hAny]
    simp

theorem Row.has_set_ne (r : Row) (c c' : String) (v : Cell) :
    (r.set c v).has c' = true → c' = c ∨ r.has c' = true := by
  intro h
  by_cases hc : c' = c
  · exact Or.inl hc
  · right
    unfold Row.set at h
    by_cases hAny : r.any (fun p => p.1 = c)
    · rw [if_pos hAny] at h
      unfold Row.has at h ⊢
      rw [List.any_eq_true] at h ⊢
      rcases h with ⟨q, hq, hq1⟩
      rcases List.mem_map.mp hq with ⟨q0, hq0, hq0eq⟩
      refine ⟨q0, hq0, ?_⟩
      have hkey : q.1 = q0.1 := by
        rw [← hq0eq]
        by_cases hq0c : q0.1 = c <;> simp [hq0c]
      rw [← hkey]
      exact hq1
    · rw [if_neg hAny] at h
      unfold Row.has at h ⊢
      rw [List.any_eq_true] at h ⊢
      rcases h with ⟨q, hq, hq1⟩
      rcases List.mem_append.mp hq with hq | hq
      · exact ⟨q, hq, hq1⟩
      · simp only [List.mem_singleton] at hq
        subst hq
        simp only [decide_eq_true_eq] at hq1
        exact absurd hq1.symm hc

theorem Row.has_of_set_has (r : Row) (c c' : String) (v : Cell)
    (h : r.has c' = true) : (r.set c v).has c' = true := by
  unfold Row.set
  unfold Row.has at h ⊢
  by_cases hAny : r.any (fun p => p.1 = c)
  · rw [if_pos hAny]
    rw [List.any_eq_true] at h ⊢
    rcases h with ⟨q, hq, hq1⟩
    by_cases hqc : q.1 = c
    · refine ⟨(q.1, v), List.mem_map.mpr ⟨q, hq, by simp [hqc]⟩, hq1⟩
    · refine ⟨q, List.mem_map.mpr ⟨q, hq, by simp [hqc]⟩, hq1⟩
  · rw [if_neg hAny]
    rw [List.any_eq_true] at h ⊢
    rcases h with ⟨q, hq, hq1⟩
    exact ⟨q, List.mem_append.mpr (Or.inl hq), hq1⟩

theorem Row.get_ne_null_of_noNull (r : Row) (c : String)
    (hn : r.noNull = true) (hh : r.has c = true) : r.get c ≠ Cell.null := by
  unfold Row.has at hh
  rw [List.any_eq_true] at hh
  rcases hh with ⟨q, hq, hq1⟩
  simp only [decide_eq_true_eq] at hq1
  unfold Row.noNull at hn
  rw [List.all_eq_true] at hn
  induction r with
  | nil => simp at hq
  | cons p t ih =>
      rw [Row.get_cons]
      by_cases hp : p.1 = c
      · rw [if_pos hp]
        have := hn p (List.mem_cons_self p t)
        simpa using this
      · rw [if_neg hp]
        rcases List.mem_cons.mp hq with hq' | hq'
        · exact absurd (hq' ▸ hq1) hp
        · exact ih (fun x hx => hn x (List.mem_cons_of_mem p hx)) hq'

theorem mem_dropDupAux (l : List (Cell × Row)) (seen : List Row)
    (p : Cell × Row) (h : p ∈ dropDupAux l seen) : p ∈ l := by
  induction l generalizing seen with
  | nil =>
      simp [dropDupAux] at h
  | cons q t ih =>
      unfold dropDupAux at h
      by_cases hs : q.2 ∈ seen
      · rw [if_pos hs] at h
        exact List.mem_cons_of_mem q (ih seen h)
      · rw [if_neg hs] at h
        rcases List.mem_cons.mp h with h' | h'
        · exact h' ▸ List.mem_cons_self q t
        · exact List.mem_cons_of_mem q (ih (q.2 :: seen) h')

/-
  Helper lemmas about the weight parser (claims C4 and C5).
-/

theorem convert_to_kg_mult (s : String) (h : strContains s "x" = true) :
    convert_to_kg (Cell.str s) =
      match firstDecimalList ((splitOnX s.data).getD 0 []),
            firstDecimalList ((splitOnX s.data).getD 1 []) with
      | some q, some u =>
          if strContains s "g" || strContains s "ml" then some (q * u / 1000)
          else some (q * u)
      | _, _ => none := by
  unfold convert_to_kg
  dsimp only
  rw [if_pos h]
  cases h0 : firstDecimalList ((splitOnX s.data).getD 0 []) with
  | none => rfl
  | some q =>
      cases h1 : firstDecimalList ((splitOnX s.data).getD 1 []) with
      | none => rfl
      | some u => rfl

theorem convert_to_kg_single (s : String) (h : strContains s "x" = false) :
    convert_to_kg (Cell.str s) =
      match firstDecimal s with
      | some t =>
          if strContains s "g" || strContains s "ml" then some (t / 1000)
          else some t
      | none => none := by
  unfold convert_to_kg
  dsimp only
  rw [h]
  simp only [Bool.false_eq_true, if_false]
  cases ht : firstDecimal s with
  | none => rfl
  | some t => rfl

theorem firstDecimalList_none_of_noDigit (l : List Char)
    (h : l.all (fun c => !c.isDigit) = true) : firstDecimalList l = none := by
  induction l with
  | nil => rfl
  | cons c cs ih =>
      rw [List.all_cons] at h
      rcases Bool.and_eq_true_iff.mp h with ⟨h1, h2⟩
      have hc : c.isDigit = false := by simpa using h1
      unfold firstDecimalList
      rw [hc]
      simp only [Bool.false_eq_true, if_false]
      exact ih h2

theorem splitOnX_all_noDigit (l : List Char)
    (h : l.all (fun c => !c.isDigit) = true) :
    ∀ part ∈ splitOnX l, part.all (fun c => !c.isDigit) = true := by
  induction l with
  | nil =>
      intro part hp
      simp only [splitOnX, List.mem_singleton] at hp
      subst hp
      rfl
  | cons c cs ih =>
      rw [List.all_cons] at h
      rcases Bool.and_eq_true_iff.mp h with ⟨h1, h2⟩
      intro part hp
      unfold splitOnX at hp
      by_cases hc : c = 'x'
      · rw [if_pos hc] at hp
        rcases List.mem_cons.mp hp with h' | h'
        · subst h'
          rfl
        · exact ih h2 part h'
      · rw [if_neg hc] at hp
        cases hs : splitOnX cs with
        | nil =>
            rw [hs] at hp
            simp only [List.mem_singleton] at hp
            subst hp
            simp [h1]
        | cons hd tl =>
            rw [hs] at hp
            rcases List.mem_cons.mp hp with h' | h'
            · subst h'
              rw [List.all_cons]
              refine Bool.and_eq_true_iff.mpr ⟨h1, ?_⟩
              exact ih h2 hd (hs ▸ List.mem_cons_self hd tl)
            · exact ih h2 part (hs ▸ List.mem_cons_of_mem hd h')

theorem all_getD_noDigit (L : List (List Char))
    (h : ∀ p ∈ L, p.all (fun c => !c.isDigit) = true) (i : ℕ) :
    (L.getD i []).all (fun c => !c.isDigit) = true := by
  cases hg : L[i]? with
  | none =>
      rw [List.getD_eq_getElem?_getD, hg]
      rfl
  | some p =>
      rw [List.getD_eq_getElem?_getD, hg]
      exact h p (List.getElem?_mem hg)

theorem convert_to_kg_none_of_noDigit (s : String)
    (h : s.data.all (fun c => !c.isDigit) = true) :
    convert_to_kg (Cell.str s) = none := by
  by_cases hx : strContains s "x" = true
  · rw [convert_to_kg_mult s hx]
    have hparts := splitOnX_all_noDigit s.data h
    rw [firstDecimalList_none_of_noDigit _ (all_getD_noDigit _ hparts 0)]
  · rw [convert_to_kg_single s (Bool.eq_false_iff.mpr hx)]
    unfold firstDecimal
    rw [firstDecimalList_none_of_noDigit _ h]

theorem convert_product_weights_rounds (df : DF) (i : Cell) (r : Row)
    (h : (i, r) ∈ df.rows) :
    ∃ r2, (i, r2) ∈ (convert_product_weights df).rows ∧
      r2.get "weight_kg" =
        (match convert_to_kg (r.get "weight") with
         | some q => Cell.num (roundTo 5 q)
         | none => Cell.null) := by
  unfold convert_product_weights DF.addColByRow DF.dropCol DF.mapCol
  simp only [List.map_map, List.mem_map]
  refine ⟨_, ⟨(i, r), h, rfl⟩, ?_⟩
  simp only [Function.comp]
  rw [Row.get_set_self]
  rw [Row.get_removeCol_ne _ _ _ (by decide)]
  rw [Row.get_set_self]
  cases hc : convert_to_kg (r.get "weight") with
  | none => rfl
  | some q => rfl

/-
  Helper lemmas for the weight-class categorizer (claim C6).
-/

theorem weightClass_light (q : ℚ) (h : q < 2) :
    weightClass (Cell.num q) = "Light" := by
  unfold weightClass
  dsimp only
  rw [if_pos h]

theorem weightClass_mid (q : ℚ) (h1 : 2 ≤ q) (h2 : q < 40) :
    weightClass (Cell.num q) = "Mid_Sized" := by
  unfold weightClass
  dsimp only
  rw [if_neg (by linarith), if_pos ⟨h1, h2⟩]

theorem weightClass_heavy (q : ℚ) (h1 : 40 ≤ q) (h2 : q < 140) :
    weightClass (Cell.num q) = "Heavy" := by
  unfold weightClass
  dsimp only
  rw [if_neg (by linarith)]
  rw [if_neg (by
    intro hh
    linarith [hh.2])]
  rw [if_pos ⟨h1, h2⟩]

theorem weightClass_truck (q : ℚ) (h : 140 ≤ q) :
    weightClass (Cell.num q) = "Truck_Required" := by
  unfold weightClass
  dsimp only
  rw [if_neg (by linarith)]
  rw [if_neg (by
    intro hh
    linarith [hh.2])]
  rw [if_neg (by
    intro hh
    linarith [hh.2])]
  rw [if_pos h]

/-- C6: the weight-class categorizer of clean_products_data maps weight_kg
below 2 to Light, values in [2,40) to Mid_Sized, values in [40,140) to Heavy,
values at or above 140 to Truck_Required, and null to Unknown; in particular
1.9 gives Light, 2.0 Mid_Sized, 39.999 Mid_Sized, 40.0 Heavy, 139.999 Heavy,
140.0 Truck_Required and null Unknown. -/
theorem C6_weight_class_buckets :
    (∀ q : ℚ, q < 2 → weightClass (Cell.num q) = "Light") ∧
    (∀ q : ℚ, 2 ≤ q → q < 40 → weightClass (Cell.num q) = "Mid_Sized") ∧
    (∀ q : ℚ, 40 ≤ q → q < 140 → weightClass (Cell.num q) = "Heavy") ∧
    (∀ q : ℚ, 140 ≤ q → weightClass (Cell.num q) = "Truck_Required") ∧
    weightClass Cell.null = "Unknown" ∧
    weightClass (Cell.num (19 / 10)) = "Light" ∧
    weightClass (Cell.num 2) = "Mid_Sized" ∧
    weightClass (Cell.num (39999 / 1000)) = "Mid_Sized" ∧
    weightClass (Cell.num 40) = "Heavy" ∧
    weightClass (Cell.num (139999 / 1000)) = "Heavy" ∧
    weightClass (Cell.num 140) = "Truck_Required" := by
  refine ⟨weightClass_light, weightClass_mid, weightClass_heavy, weightClass_truck,
    rfl, ?_, ?_, ?_, ?_, ?_, ?_⟩ <;> with_unfolding_all decide

/-- Witness for C6: the four guarded bucket rules applied at concrete weights. -/
theorem C6_weight_class_buckets_witness :
    weightClass (Cell.num 1) = "Light" ∧
    weightClass (Cell.num 3) = "Mid_Sized" ∧
    weightClass (Cell.num 50) = "Heavy" ∧
    weightClass (Cell.num 200) = "Truck_Required" :=
  ⟨C6_weight_class_buckets.1 1 (by norm_num),
   C6_weight_class_buckets.2.1 3 (by norm_num) (by norm_num),
   C6_weight_class_buckets.2.2.1 50 (by norm_num) (by norm_num),
   C6_weight_class_buckets.2.2.2.1 200 (by norm_num)⟩

set_option maxRecDepth 8000 in
/-- C4: evaluation of the weight parser on kg-suffixed inputs.  The claim says
kg-carrying strings are never divided by 1000; the code divides them, because
the unit test is a substring test and "g" occurs inside "kg": "3kg" parses to
0.003 (not 3.0) and "5 x 1kg" parses to 0.005 (not 5.0). -/
theorem C4_kg_weights_are_divided :
    convert_to_kg (Cell.str "3kg") = some (3 / 1000) ∧
    convert_to_kg (Cell.str "5 x 1kg") = some (5 / 1000) ∧
    strContains "3kg" "g" = true ∧
    strContains "5 x 1kg" "g" = true := by
  refine ⟨?_, ?_, ?_, ?_⟩ <;> with_unfolding_all decide

/-- Concrete products frame for the C5 witness. -/
def pwDF : DF :=
  ⟨["weight"], [(Cell.num 0, [("weight", Cell.str "5 x 145g")])]⟩

set_option maxRecDepth 8000 in
/-- C5: the weight parser follows the stated algorithm — with a
multiplication marker "x" the first decimal numbers of the first two parts
are multiplied, otherwise the first decimal number of the text is taken; a
"g"/"ml" marker divides by 1000; a string with no extractable decimal number
yields null rather than an error; the weight_kg column is rounded to 5
decimal places; and "5 x 145g" gives 0.725 while "250ml" gives 0.25. -/
theorem C5_weight_parser_algorithm :
    (∀ s : String, strContains s "x" = true →
      convert_to_kg (Cell.str s) =
        match firstDecimalList ((splitOnX s.data).getD 0 []),
              firstDecimalList ((splitOnX s.data).getD 1 []) with
        | some q, some u =>
            if strContains s "g" || strContains s "ml" then some (q * u / 1000)
            else some (q * u)
        | _, _ => none) ∧
    (∀ s : String, strContains s "x" = false →
      convert_to_kg (Cell.str s) =
        match firstDecimal s with
        | some t =>
            if strContains s "g" || strContains s "ml" then some (t / 1000)
            else some t
        | none => none) ∧
    (∀ s : String, s.data.all (fun c => !c.isDigit) = true →
      convert_to_kg (Cell.str s) = none) ∧
    convert_to_kg (Cell.str "5 x 145g") = some (725 / 1000) ∧
    convert_to_kg (Cell.str "250ml") = some (250 / 1000) ∧
    (∀ (df : DF) (i : Cell) (r : Row), (i, r) ∈ df.rows →
      ∃ r2, (i, r2) ∈ (convert_product_weights df).rows ∧
        r2.get "weight_kg" =
          (match convert_to_kg (r.get "weight") with
           | some q => Cell.num (roundTo 5 q)
           | none => Cell.null)) :=
  ⟨convert_to_kg_mult, convert_to_kg_single, convert_to_kg_none_of_noDigit,
   by with_unfolding_all decide, by with_unfolding_all decide,
   convert_product_weights_rounds⟩

set_option maxRecDepth 8000 in
/-- Witness for C5: the guarded algorithm equations instantiated on the
concrete inputs "5 x 145g", "250ml" and "assorted", and the rounding shape of
the weight_kg column of a concrete one-row frame. -/
theorem C5_weight_parser_algorithm_witness :
    convert_to_kg (Cell.str "5 x 145g") =
      (match firstDecimalList ((splitOnX "5 x 145g".data).getD 0 []),
             firstDecimalList ((splitOnX "5 x 145g".data).getD 1 []) with
       | some q, some u =>
           if strContains "5 x 145g" "g" || strContains "5 x 145g" "ml" then
             some (q * u / 1000)
           else some (q * u)
       | _, _ => none) ∧
    convert_to_kg (Cell.str "250ml") =
      (match firstDecimal "250ml" with
       | some t =>
           if strContains "250ml" "g" || strContains "250ml" "ml" then some (t / 1000)
           else some t
       | none => none) ∧
    convert_to_kg (Cell.str "assorted") = none ∧
    (∃ r2, (Cell.num 0, r2) ∈ (convert_product_weights pwDF).rows ∧
      r2.get "weight_kg" =
        (match convert_to_kg (Row.get [("weight", Cell.str "5 x 145g")] "weight") with
         | some q => Cell.num (roundTo 5 q)
         | none => Cell.null)) :=
  ⟨C5_weight_parser_algorithm.1 "5 x 145g" (by with_unfolding_all decide),
   C5_weight_parser_algorithm.2.1 "250ml" (by with_unfolding_all decide),
   C5_weight_parser_algorithm.2.2.1 "assorted" (by with_unfolding_all decide),
   C5_weight_parser_algorithm.2.2.2.2.2 pwDF (Cell.num 0)
     [("weight", Cell.str "5 x 145g")] (by with_unfolding_all decide)⟩

/-
  Helper lemmas about the UUID validator (claims C3 and C10).
-/

theorem hexChar_not_upper : ∀ d, d < 16 → ¬('A' ≤ hexChar d ∧ hexChar d ≤ 'F') := by
  decide

theorem hexDigitsAux_chars (k n : ℕ) (acc : List Char)
    (hacc : ∀ c ∈ acc, ∃ d, d < 16 ∧ c = hexChar d) :
    ∀ c ∈ hexDigitsAux k n acc, ∃ d, d < 16 ∧ c = hexChar d := by
  induction k generalizing n acc with
  | zero => exact hacc
  | succ k ih =>
      intro c hc
      unfold hexDigitsAux at hc
      refine ih (n / 16) (hexChar (n % 16) :: acc) ?_ c hc
      intro c' hc'
      rcases List.mem_cons.mp hc' with h' | h'
      · exact ⟨n % 16, Nat.mod_lt n (by norm_num), h'⟩
      · exact hacc c' h'

theorem hex32_chars (n : ℕ) :
    ∀ c ∈ hex32 n, ∃ d, d < 16 ∧ c = hexChar d :=
  hexDigitsAux_chars 32 n [] (by simp)

theorem uuidStr_chars (n : ℕ) :
    ∀ c ∈ (uuidStr n).data, c = '-' ∨ ∃ d, d < 16 ∧ c = hexChar d := by
  intro c hc
  have hdata : (uuidStr n).data =
      (hex32 n).take 8 ++ '-' :: (((hex32 n).drop 8).take 4 ++ '-' ::
        (((hex32 n).drop 12).take 4 ++ '-' :: (((hex32 n).drop 16).take 4 ++
          '-' :: (hex32 n).drop 20))) := rfl
  rw [hdata] at hc
  simp only [List.mem_append, List.mem_cons] at hc
  rcases hc with h | h | h | h | h | h | h | h | h
  · exact Or.inr (hex32_chars n c (List.mem_of_mem_take h))
  · exact Or.inl h
  · exact Or.inr (hex32_chars n c (List.mem_of_mem_drop (List.mem_of_mem_take h)))
  · exact Or.inl h
  · exact Or.inr (hex32_chars n c (List.mem_of_mem_drop (List.mem_of_mem_take h)))
  · exact Or.inl h
  · exact Or.inr (hex32_chars n c (List.mem_of_mem_drop (List.mem_of_mem_take h)))
  · exact Or.inl h
  · exact Or.inr (hex32_chars n c (List.mem_of_mem_drop h))

theorem is_valid_uuid_iff_roundtrip (s : String) :
    is_valid_uuid s = true ↔ uuidRoundtrip s = some s := by
  unfold is_valid_uuid uuidRoundtrip
  cases hp : pyUUIDparse s with
  | none => simp
  | some n => simp

theorem is_valid_uuid_no_upper (s : String) (c : Char) (hc : c ∈ s.data)
    (h1 : 'A' ≤ c) (h2 : c ≤ 'F') : is_valid_uuid s = false := by
  cases hv : is_valid_uuid s with
  | false => rfl
  | true =>
      exfalso
      unfold is_valid_uuid at hv
      rcases hps : pyUUIDparse s with _ | n
      · rw [hps] at hv
        exact Bool.false_ne_true hv
      · rw [hps] at hv
        have hs : uuidStr (forceVersion4 n) = s := by simpa using hv
        rw [← hs] at hc
        rcases uuidStr_chars (forceVersion4 n) c hc with h | ⟨d, hd, hcd⟩
        · subst h
          exact absurd h1 (by decide)
        · subst hcd
          exact hexChar_not_upper d hd ⟨h1, h2⟩

set_option maxRecDepth 8000 in
/-- C3 (counterexample): the spec's example UUID "123e4567-e89b-12d3-a456-
426614174000" has version nibble 1; parsing with version=4 overwrites that
nibble, so the round trip produces a different string and is_valid_uuid
returns false, not true as claimed. -/
theorem C3_spec_example_uuid_is_rejected :
    is_valid_uuid "123e4567-e89b-12d3-a456-426614174000" = false ∧
    uuidRoundtrip "123e4567-e89b-12d3-a456-426614174000" =
      some "123e4567-e89b-42d3-a456-426614174000" := by
  constructor
  · with_unfolding_all rfl
  · with_unfolding_all rfl

set_option maxRecDepth 8000 in
/-- C3 (amended): is_valid_uuid accepts exactly the strings whose
version-forced parse re-serializes to the identical input; a genuinely
version-4 UUID string such as "123e4567-e89b-42d3-a456-426614174000" is
accepted, "not-a-uuid" is rejected, and every string containing an uppercase
hex letter is rejected (the canonical re-serialization is lowercase); the
spec's example "123e4567-e89b-12d3-a456-426614174000" is version 1 and is
rejected. -/
theorem C3_uuid_validator_roundtrip :
    (∀ s : String, is_valid_uuid s = true ↔ uuidRoundtrip s = some s) ∧
    is_valid_uuid "123e4567-e89b-42d3-a456-426614174000" = true ∧
    is_valid_uuid "not-a-uuid" = false ∧
    is_valid_uuid "123e4567-e89b-12d3-a456-426614174000" = false ∧
    (∀ (s : String) (c : Char), c ∈ s.data → 'A' ≤ c → c ≤ 'F' →
      is_valid_uuid s = false) :=
  ⟨is_valid_uuid_iff_roundtrip,
   by with_unfolding_all rfl,
   by with_unfolding_all rfl,
   by with_unfolding_all rfl,
   is_valid_uuid_no_upper⟩

set_option maxRecDepth 8000 in
/-- Witness for C3: the uppercase-rejection rule applied to a concrete
uppercase spelling of a valid version-4 UUID. -/
theorem C3_uuid_validator_roundtrip_witness :
    is_valid_uuid "123E4567-E89B-42D3-A456-426614174000" = false :=
  C3_uuid_validator_roundtrip.2.2.2.2 "123E4567-E89B-42D3-A456-426614174000" 'E'
    (by decide) (by decide) (by decide)

/-
  Helper lemmas for idempotence of the row-cleaning utility (claim C2).
-/

theorem replaceNULLCell_idem (c : Cell) :
    replaceNULLCell (replaceNULLCell c) = replaceNULLCell c := by
  unfold replaceNULLCell
  by_cases h : c = Cell.str "NULL"
  · rw [if_pos h]
    rfl
  · rw [if_neg h, if_neg h]

theorem rowRep_idem (r : Row) :
    (r.map (fun q => (q.1, replaceNULLCell q.2))).map
        (fun q => (q.1, replaceNULLCell q.2)) =
      r.map (fun q => (q.1, replaceNULLCell q.2)) := by
  rw [List.map_map]
  apply List.map_congr_left
  intro q _
  simp [Function.comp, replaceNULLCell_idem]

theorem map_self_of_fixed {α : Type} (l : List α) (f : α → α)
    (h : ∀ x ∈ l, f x = x) : l.map f = l := by
  induction l with
  | nil => rfl
  | cons a t ih =>
      rw [List.map_cons, h a (List.mem_cons_self a t),
        ih (fun x hx => h x (List.mem_cons_of_mem a hx))]

theorem dropDupAux_pairwise (l : List (Cell × Row)) (seen : List Row) :
    (dropDupAux l seen).Pairwise (fun a b => a.2 ≠ b.2) ∧
      ∀ p ∈ dropDupAux l seen, p.2 ∉ seen := by
  induction l generalizing seen with
  | nil => simp [dropDupAux]
  | cons q t ih =>
      unfold dropDupAux
      by_cases hs : q.2 ∈ seen
      · rw [if_pos hs]
        exact ih seen
      · rw [if_neg hs]
        rcases ih (q.2 :: seen) with ⟨hpw, hnm⟩
        refine ⟨List.pairwise_cons.mpr ⟨?_, hpw⟩, ?_⟩
        · intro p hp hq
          exact hnm p hp (by rw [← hq]; exact List.mem_cons_self q.2 seen)
        · intro p hp
          rcases List.mem_cons.mp hp with h' | h'
          · rw [h']
            exact hs
          · intro hmem
            exact hnm p h' (List.mem_cons_of_mem _ hmem)

theorem dropDupAux_eq_self (l : List (Cell × Row)) (seen : List Row)
    (hpw : l.Pairwise (fun a b => a.2 ≠ b.2)) (hnm : ∀ p ∈ l, p.2 ∉ seen) :
    dropDupAux l seen = l := by
  induction l generalizing seen with
  | nil => rfl
  | cons q t ih =>
      unfold dropDupAux
      rw [if_neg (hnm q (List.mem_cons_self q t))]
      rcases List.pairwise_cons.mp hpw with ⟨hq, hpw'⟩
      rw [ih (q.2 :: seen) hpw' ?_]
      intro p hp
      intro hmem
      rcases List.mem_cons.mp hmem with h' | h'
      · exact hq p hp h'.symm
      · exact hnm p (List.mem_cons_of_mem q hp) h'

theorem filter_idem {α : Type} (l : List α) (p : α → Bool) :
    (l.filter p).filter p = l.filter p :=
  List.filter_eq_self.mpr (fun _ ha => List.of_mem_filter ha)

/-- Concrete two-row frame on which the keyed row-cleaning utility is not
idempotent: the two rows agree on every non-key column, so the second
application's duplicate-removal (which ignores the promoted index) merges
them. -/
def c2df : DF :=
  ⟨["index", "a"],
   [(Cell.num 0, [("index", Cell.num 1), ("a", Cell.str "x")]),
    (Cell.num 1, [("index", Cell.num 2), ("a", Cell.str "x")])]⟩

set_option maxRecDepth 4000 in
/-- C2 (counterexample): with key column "index", applying _clean_dataframe
twice to the concrete frame c2df drops a row the first application kept, so
double application differs from single application. -/
theorem C2_keyed_clean_not_idempotent :
    clean_dataframe (clean_dataframe c2df (some "index")) (some "index") ≠
      clean_dataframe c2df (some "index") := by
  with_unfolding_all decide

/-- C2 (amended): with no key column, the row-cleaning utility is idempotent:
replacing "NULL" strings, dropping duplicate rows and dropping null rows a
second time changes nothing.  (With a key column the first application
promotes and removes the key, after which duplicate-removal can merge rows
that differed only in the key, as the counterexample shows.) -/
theorem C2_clean_dataframe_idempotent_keyless (df : DF) :
    clean_dataframe (clean_dataframe df none) none = clean_dataframe df none := by
  unfold clean_dataframe
  unfold DF.replaceNULL DF.mapCells DF.dropDups DF.dropna
  simp only []
  congr 1
  set R : List (Cell × Row) → List (Cell × Row) :=
    fun rows => rows.map (fun p => (p.1, p.2.map (fun q => (q.1, replaceNULLCell q.2)))) with hR
  set N : List (Cell × Row) → List (Cell × Row) :=
    fun rows => rows.filter (fun p => p.2.noNull) with hN
  show N (dropDupRows (R (N (dropDupRows (R df.rows))))) = N (dropDupRows (R df.rows))
  have stepA : R (N (dropDupRows (R df.rows))) = N (dropDupRows (R df.rows)) := by
    apply map_self_of_fixed
    intro p hp
    have hp1 : p ∈ dropDupRows (R df.rows) := List.mem_of_mem_filter hp
    have hp2 : p ∈ R df.rows := mem_dropDupAux _ [] p hp1
    rcases List.mem_map.mp hp2 with ⟨q, _, hq⟩
    have : p.2.map (fun q => (q.1, replaceNULLCell q.2)) = p.2 := by
      rw [← hq]
      exact rowRep_idem q.2
    calc (p.1, p.2.map (fun q => (q.1, replaceNULLCell q.2))) = (p.1, p.2) := by rw [this]
      _ = p := rfl
  rw [stepA]
  have stepB : dropDupRows (N (dropDupRows (R df.rows))) = N (dropDupRows (R df.rows)) := by
    unfold dropDupRows
    apply dropDupAux_eq_self
    · exact List.Pairwise.sublist (List.filter_sublist _) (dropDupAux_pairwise (R df.rows) []).1
    · simp
  rw [stepB]
  exact filter_idem _ _

/-
  Helper lemmas and frames for the null-free-output invariant (claim C1).
-/

/-- No row of the frame contains a null cell in any retained column. -/
def DF.noNulls (df : DF) : Prop :=
  ∀ p ∈ df.rows, p.2.noNull = true

instance (df : DF) : Decidable df.noNulls := by
  unfold DF.noNulls
  infer_instance

theorem noNulls_dropna (df : DF) : df.dropna.noNulls := by
  intro q hq
  unfold DF.dropna at hq
  have hq2 : q ∈ List.filter (fun x => x.2.noNull) df.rows := hq
  exact List.of_mem_filter (p := fun (x : Cell × Row) => x.2.noNull) hq2

theorem noNulls_filterRows (df : DF) (q : Row → Bool) (h : df.noNulls) :
    (df.filterRows q).noNulls := by
  intro p hp
  unfold DF.filterRows at hp
  have hp2 : p ∈ List.filter (fun x => q x.2) df.rows := hp
  exact h p (List.mem_of_mem_filter hp2)

theorem clean_user_data_noNulls (df out : DF)
    (h : clean_user_data df = Except.ok out) : out.noNulls := by
  unfold clean_user_data at h
  simp only [] at h
  rcases hf : DF.filterRowsE _ (fun r => is_valid_uuid_cell (r.get "user_uuid")) with e | d5
  · rw [hf] at h
    exact absurd h (by simp)
  · rw [hf] at h
    simp only [Except.ok.injEq] at h
    rw [← h]
    exact noNulls_dropna _

theorem clean_card_data_noNulls (df : DF) : (clean_card_data df).noNulls :=
  noNulls_dropna _

theorem clean_orders_data_noNulls (df out : DF)
    (h : clean_orders_data df = Except.ok out) : out.noNulls := by
  unfold clean_orders_data at h
  simp only [] at h
  rcases hf : DF.filterRowsE _ (fun r => is_valid_uuid_cell (r.get "user_uuid")) with e | d3
  · rw [hf] at h
    exact absurd h (by simp)
  · rw [hf] at h
    simp only [Except.ok.injEq] at h
    rw [← h]
    exact noNulls_dropna _

theorem clean_date_times_noNulls (df : DF) : (clean_date_times df).noNulls := by
  unfold clean_date_times
  exact noNulls_filterRows _ _ (noNulls_dropna _)

/-- Concrete store frame: the online-store first row has a null latitude,
which the pipeline fills with "N/A", carries through the null-drop, and then
restores to null in the returned table. -/
def storeNullLat : DF :=
  ⟨["index", "address", "lat", "longitude", "locality", "staff_numbers",
    "opening_date", "latitude", "country_code", "continent"],
   [(Cell.num 0,
     [("index", Cell.num 0), ("address", Cell.str "a"), ("lat", Cell.null),
      ("longitude", Cell.num 1), ("locality", Cell.str "web"),
      ("staff_numbers", Cell.str "12"), ("opening_date", Cell.str "2020-01-05"),
      ("latitude", Cell.null), ("country_code", Cell.str "GB"),
      ("continent", Cell.str "Europe")])]⟩

/-- Concrete products frame whose price does not parse: the coerced price
becomes null after the initial null-drop, and no further null-drop follows. -/
def prodBadPrice : DF :=
  ⟨["Unnamed: 0", "product_name", "product_price", "removed", "date_added",
    "weight_kg", "uuid"],
   [(Cell.num 0,
     [("Unnamed: 0", Cell.num 0), ("product_name", Cell.str "A"),
      ("product_price", Cell.str "abc"), ("removed", Cell.str "Still_avaliable"),
      ("date_added", Cell.str "2020-01-01"), ("weight_kg", Cell.num 1),
      ("uuid", Cell.str "123e4567-e89b-12d3-a456-426614174000")])]⟩

set_option maxRecDepth 8000 in
/-- C1 (counterexample): two Dataset Cleaners return tables that do contain
null cells — clean_store_data restores the online-store row's "N/A" sentinels
to null after its final null-drop, and clean_products_data introduces nulls
(here an unparseable price) after its initial null-drop and never drops
again. -/
theorem C1_store_and_products_emit_nulls :
    ¬ (clean_store_data storeNullLat).noNulls ∧
    ¬ (clean_products_data prodBadPrice).noNulls := by
  constructor
  · with_unfolding_all decide
  · with_unfolding_all decide

/-- C1 (amended): the four Dataset Cleaners clean_user_data, clean_card_data,
clean_orders_data and clean_date_times return tables with no null cell in any
retained column; clean_store_data and clean_products_data do not share the
invariant (see the counterexample). -/
theorem C1_cleaners_return_no_nulls :
    (∀ df out, clean_user_data df = Except.ok out → out.noNulls) ∧
    (∀ df, (clean_card_data df).noNulls) ∧
    (∀ df out, clean_orders_data df = Except.ok out → out.noNulls) ∧
    (∀ df, (clean_date_times df).noNulls) :=
  ⟨clean_user_data_noNulls, clean_card_data_noNulls,
   clean_orders_data_noNulls, clean_date_times_noNulls⟩

/-- Concrete user frame with a valid US row, used by the C1 and C7
witnesses. -/
def userGood : DF :=
  ⟨["index", "date_of_birth", "join_date", "country", "country_code",
    "phone_number", "user_uuid"],
   [(Cell.num 0,
     [("index", Cell.num 1), ("date_of_birth", Cell.str "1990-01-02"),
      ("join_date", Cell.str "2000-03-04"), ("country", Cell.str "United States"),
      ("country_code", Cell.str "US"), ("phone_number", Cell.str "(123) 456-7890"),
      ("user_uuid", Cell.str "00000000-0000-4000-8000-000000000000")])]⟩

/-- The table clean_user_data returns on userGood. -/
def userGoodOut : DF :=
  ⟨["date_of_birth", "join_date", "country", "country_code", "phone_number",
    "user_uuid"],
   [(Cell.num 1,
     [("date_of_birth", Cell.date 1990 1 2), ("join_date", Cell.date 2000 3 4),
      ("country", Cell.str "United States"), ("country_code", Cell.str "US"),
      ("phone_number", Cell.str "(123) 456-7890"),
      ("user_uuid", Cell.str "00000000-0000-4000-8000-000000000000")])]⟩

set_option maxRecDepth 8000 in
/-- Witness for C1: the user-cleaner conjunct applied to the concrete frame
userGood, whose cleaning succeeds with the explicit output userGoodOut. -/
theorem C1_cleaners_return_no_nulls_witness : userGoodOut.noNulls :=
  C1_cleaners_return_no_nulls.1 userGood userGoodOut (by with_unfolding_all rfl)

/-
  Row-invariant transfer machinery for tracing column properties through the
  pipelines (claims C7, C8, C9).
-/

/-- Every row of the list satisfies the predicate. -/
def RowsP (l : List (Cell × Row)) (P : Row → Prop) : Prop :=
  ∀ p ∈ l, P p.2

theorem RowsP_map (l : List (Cell × Row)) (g : Cell × Row → Cell) (f : Row → Row)
    {P Q : Row → Prop} (h : RowsP l P) (hf : ∀ r, P r → Q (f r)) :
    RowsP (l.map (fun p => (g p, f p.2))) Q := by
  intro p hp
  rcases List.mem_map.mp hp with ⟨q, hq, hqe⟩
  rw [← hqe]
  exact hf q.2 (h q hq)

theorem RowsP_filter (l : List (Cell × Row)) (b : Cell × Row → Bool)
    {P : Row → Prop} (h : RowsP l P) : RowsP (l.filter b) P := by
  intro p hp
  exact h p (List.mem_of_mem_filter hp)

theorem RowsP_dropna (l : List (Cell × Row)) {P : Row → Prop} (h : RowsP l P) :
    RowsP (l.filter (fun p => p.2.noNull)) (fun r => P r ∧ r.noNull = true) := by
  intro p hp
  refine ⟨h p (List.mem_of_mem_filter hp), ?_⟩
  exact List.of_mem_filter (p := fun (x : Cell × Row) => x.2.noNull) hp

theorem RowsP_dropDupRows (l : List (Cell × Row)) {P : Row → Prop}
    (h : RowsP l P) : RowsP (dropDupRows l) P := by
  intro p hp
  exact h p (mem_dropDupAux l [] p hp)

theorem RowsP_weaken (l : List (Cell × Row)) {P Q : Row → Prop}
    (h : RowsP l P) (hw : ∀ r, P r → Q r) : RowsP l Q := by
  intro p hp
  exact hw p.2 (h p hp)

theorem mem_filterME (pred : Row → Except String Bool)
    (l l2 : List (Cell × Row)) (h : filterME pred l = Except.ok l2) :
    ∀ p ∈ l2, p ∈ l := by
  induction l generalizing l2 with
  | nil =>
      unfold filterME at h
      simp only [Except.ok.injEq] at h
      rw [← h]
      intro p hp
      exact hp
  | cons q t ih =>
      unfold filterME at h
      rcases hq : pred q.2 with e | b
      · rw [hq] at h
        exact absurd h (by simp)
      · rw [hq] at h
        rcases ht : filterME pred t with e | l3
        · rw [ht] at h
          exact absurd h (by simp)
        · rw [ht] at h
          simp only [Except.ok.injEq] at h
          rw [← h]
          intro p hp
          cases b with
          | true =>
              rw [if_pos rfl] at hp
              rcases List.mem_cons.mp hp with h' | h'
              · exact h' ▸ List.mem_cons_self q t
              · exact List.mem_cons_of_mem q (ih l3 ht p h')
          | false =>
              rw [if_neg (by simp)] at hp
              exact List.mem_cons_of_mem q (ih l3 ht p hp)

theorem filterME_ok_of_all (pred : Row → Except String Bool)
    (l : List (Cell × Row)) (h : ∀ p ∈ l, ∃ b, pred p.2 = Except.ok b) :
    ∃ l2, filterME pred l = Except.ok l2 := by
  induction l with
  | nil => exact ⟨[], rfl⟩
  | cons q t ih =>
      rcases h q (List.mem_cons_self q t) with ⟨b, hb⟩
      rcases ih (fun p hp => h p (List.mem_cons_of_mem q hp)) with ⟨l3, hl3⟩
      refine ⟨if b then q :: l3 else l3, ?_⟩
      unfold filterME
      rw [hb, hl3]

theorem Row.has_mapPair (r : Row) (c : String) (f : Cell → Cell) :
    Row.has (r.map (fun (q : String × Cell) => (q.1, f q.2))) c = r.has c := by
  unfold Row.has
  induction r with
  | nil => rfl
  | cons p t ih =>
      simp only [List.map_cons, List.any_cons]
      rw [ih]

theorem Row.has_removeCol_ne (r : Row) (c c' : String) (h : c' ≠ c) :
    (r.removeCol c).has c' = r.has c' := by
  unfold Row.removeCol Row.has
  induction r with
  | nil => rfl
  | cons p t ih =>
      by_cases hp : p.1 = c
      · rw [List.filter_cons_of_neg (by simp [hp])]
        rw [List.any_cons]
        have hp' : (decide (p.1 = c') : Bool) = false := by
          simp only [decide_eq_false_iff_not]
          rw [hp]
          exact fun hc => h hc.symm
        rw [hp', Bool.false_or]
        exact ih
      · rw [List.filter_cons_of_pos (by simp [hp])]
        rw [List.any_cons, List.any_cons, ih]

theorem Row.has_of_get_ne_null (r : Row) (c : String) (h : r.get c ≠ Cell.null) :
    r.has c = true := by
  unfold Row.get at h
  rcases hf : r.find? (fun p => p.1 = c) with _ | p
  · rw [hf] at h
    exact absurd rfl h
  · have hp := List.find?_some hf
    have hm := List.mem_of_find?_eq_some hf
    unfold Row.has
    rw [List.any_eq_true]
    exact ⟨p, hm, hp⟩

theorem RowsP_DF_mapRows (df : DF) (f : Row → Row) {P Q : Row → Prop}
    (h : RowsP df.rows P) (hf : ∀ r, P r → Q (f r)) :
    RowsP (df.mapRows f).rows Q := by
  unfold DF.mapRows
  exact RowsP_map df.rows (fun p => p.1) f h hf

theorem RowsP_DF_mapCol (df : DF) (c : String) (g : Cell → Cell)
    {P Q : Row → Prop} (h : RowsP df.rows P)
    (hf : ∀ r, P r → Q (r.set c (g (r.get c)))) :
    RowsP (df.mapCol c g).rows Q := by
  unfold DF.mapCol
  exact RowsP_map df.rows (fun p => p.1) (fun r => r.set c (g (r.get c))) h hf

theorem RowsP_DF_addColByRow (df : DF) (c : String) (g : Row → Cell)
    {P Q : Row → Prop} (h : RowsP df.rows P)
    (hf : ∀ r, P r → Q (r.set c (g r))) :
    RowsP (df.addColByRow c g).rows Q := by
  unfold DF.addColByRow
  exact RowsP_map df.rows (fun p => p.1) (fun r => r.set c (g r)) h hf

theorem RowsP_DF_dropCol (df : DF) (c : String) {P Q : Row → Prop}
    (h : RowsP df.rows P) (hf : ∀ r, P r → Q (r.removeCol c)) :
    RowsP (df.dropCol c).rows Q := by
  unfold DF.dropCol
  exact RowsP_map df.rows (fun p => p.1) (fun r => r.removeCol c) h hf

theorem RowsP_DF_renameCol (df : DF) (a b : String) {P Q : Row → Prop}
    (h : RowsP df.rows P) (hf : ∀ r, P r → Q (r.renameCol a b)) :
    RowsP (df.renameCol a b).rows Q := by
  unfold DF.renameCol
  exact RowsP_map df.rows (fun p => p.1) (fun r => r.renameCol a b) h hf

theorem RowsP_DF_mapCells (df : DF) (f : Cell → Cell) {P Q : Row → Prop}
    (h : RowsP df.rows P)
    (hf : ∀ r, P r → Q (r.map (fun (q : String × Cell) => (q.1, f q.2)))) :
    RowsP (df.mapCells f).rows Q := by
  unfold DF.mapCells
  exact RowsP_map df.rows (fun p => p.1)
    (fun r => r.map (fun (q : String × Cell) => (q.1, f q.2))) h hf

theorem RowsP_DF_dropna (df : DF) {P : Row → Prop} (h : RowsP df.rows P) :
    RowsP df.dropna.rows (fun r => P r ∧ r.noNull = true) := by
  unfold DF.dropna
  exact RowsP_dropna df.rows h

theorem RowsP_DF_filterRows (df : DF) (b : Row → Bool) {P : Row → Prop}
    (h : RowsP df.rows P) : RowsP (df.filterRows b).rows P := by
  unfold DF.filterRows
  exact RowsP_filter df.rows _ h

theorem RowsP_clean_dataframe (df : DF) (key : Option String) {P : Row → Prop}
    (h : RowsP df.rows P)
    (hrep : ∀ r, P r → P (r.map (fun (q : String × Cell) => (q.1, replaceNULLCell q.2))))
    (hidx : ∀ k r, key = some k → P r → P (r.removeCol k)) :
    RowsP (clean_dataframe df key).rows P := by
  unfold clean_dataframe
  dsimp only
  have h3 : RowsP df.replaceNULL.dropDups.dropna.rows P := by
    refine RowsP_weaken _ (RowsP_DF_dropna _ ?_) (fun r hr => hr.1)
    refine RowsP_dropDupRows _ ?_
    exact RowsP_DF_mapCells df replaceNULLCell h hrep
  cases key with
  | none => exact h3
  | some k =>
      dsimp only
      split
      · unfold DF.setIndexCol
        exact RowsP_map _ (fun p => p.2.get k) (fun r => r.removeCol k) h3
          (fun r hr => hidx k r rfl hr)
      · exact h3

theorem RowsP_storeFill (df : DF) {P : Row → Prop} (h : RowsP df.rows P)
    (hf : ∀ r, P r →
      P (r.map (fun (q : String × Cell) =>
        (q.1, if q.2 = Cell.null then Cell.str "N/A" else q.2)))) :
    RowsP (storeFillFirstRow df).rows P := by
  unfold storeFillFirstRow
  cases hr : df.rows with
  | nil => simpa [hr] using h
  | cons p ps =>
      intro q hq
      rcases List.mem_cons.mp hq with h' | h'
      · rw [h']
        exact hf p.2 (h p (hr ▸ List.mem_cons_self p ps))
      · exact h q (hr ▸ List.mem_cons_of_mem p h')

/-
  Claim C8: country-code screening in clean_store_data.
-/

/-- The country code of the row is one of the three retained codes. -/
def CCvalid (r : Row) : Prop :=
  r.get "country_code" = Cell.str "DE" ∨ r.get "country_code" = Cell.str "US" ∨
    r.get "country_code" = Cell.str "GB"

instance (r : Row) : Decidable (CCvalid r) := by
  unfold CCvalid
  infer_instance

/-- Tracking invariant inside clean_store_data: the country-code column is
present and its value is one of the three codes or null. -/
def CCtracked (r : Row) : Prop :=
  r.has "country_code" = true ∧ (CCvalid r ∨ r.get "country_code" = Cell.null)

theorem clean_store_country_codes (df : DF)
    (h : RowsP df.rows (fun r => r.has "country_code" = true)) :
    RowsP (clean_store_data df).rows CCvalid := by
  unfold clean_store_data
  dsimp only
  unfold DF.replaceVal
  have hD1 : RowsP (df.dropCol "lat").rows (fun r => r.has "country_code" = true) := by
    refine RowsP_DF_dropCol df "lat" h (fun r hr => ?_)
    rw [Row.has_removeCol_ne r "lat" "country_code" (by decide)]
    exact hr
  have hD2 : RowsP (storeFillFirstRow (df.dropCol "lat")).rows
      (fun r => r.has "country_code" = true) := by
    refine RowsP_storeFill _ hD1 (fun r hr => ?_)
    rw [Row.has_mapPair r "country_code"
      (fun c => if c = Cell.null then Cell.str "N/A" else c)]
    exact hr
  have hD3 : RowsP (clean_dataframe (storeFillFirstRow (df.dropCol "lat"))
      (some "index")).rows (fun r => r.has "country_code" = true) := by
    refine RowsP_clean_dataframe _ _ hD2 (fun r hr => ?_) (fun k r hk hr => ?_)
    · rw [Row.has_mapPair r "country_code" replaceNULLCell]
      exact hr
    · simp only [Option.some.injEq] at hk
      rw [← hk]
      rw [Row.has_removeCol_ne r "index" "country_code" (by decide)]
      exact hr
  have h4 : RowsP ((clean_dataframe (storeFillFirstRow (df.dropCol "lat"))
      (some "index")).mapRows (fun r =>
        if r.get "country_code" = Cell.str "DE" ∨ r.get "country_code" = Cell.str "US" ∨
           r.get "country_code" = Cell.str "GB"
        then r else r.set "country_code" Cell.null)).rows CCtracked := by
    refine RowsP_DF_mapRows _ _ hD3 (fun r hr => ?_)
    by_cases hc : r.get "country_code" = Cell.str "DE" ∨
        r.get "country_code" = Cell.str "US" ∨ r.get "country_code" = Cell.str "GB"
    · rw [if_pos hc]
      exact ⟨hr, Or.inl hc⟩
    · rw [if_neg hc]
      refine ⟨Row.has_set_self r "country_code" Cell.null, Or.inr ?_⟩
      exact Row.get_set_self r "country_code" Cell.null
  have hKeep : ∀ (c2 : String) (v : Cell), c2 ≠ "country_code" →
      ∀ r : Row, CCtracked r → CCtracked (r.set c2 v) := by
    intro c2 v hne r hr
    have hne' : "country_code" ≠ c2 := fun hc => hne hc.symm
    refine ⟨Row.has_of_set_has r c2 "country_code" v hr.1, ?_⟩
    unfold CCvalid
    rw [Row.get_set_ne r c2 "country_code" v hne']
    exact hr.2
  have h5 : ∀ r : Row, CCtracked r → CCtracked
      (if r.get "continent" = Cell.str "eeEurope"
       then r.set "continent" (Cell.str "Europe") else r) := by
    intro r hr
    by_cases hc : r.get "continent" = Cell.str "eeEurope"
    · rw [if_pos hc]
      exact hKeep "continent" (Cell.str "Europe") (by decide) r hr
    · rw [if_neg hc]
      exact hr
  have h6 : ∀ r : Row, CCtracked r → CCtracked
      (if r.get "continent" = Cell.str "eeAmerica"
       then r.set "continent" (Cell.str "America") else r) := by
    intro r hr
    by_cases hc : r.get "continent" = Cell.str "eeAmerica"
    · rw [if_pos hc]
      exact hKeep "continent" (Cell.str "America") (by decide) r hr
    · rw [if_neg hc]
      exact hr
  refine RowsP_DF_mapCells _ _
    (RowsP_DF_dropna _
      (RowsP_DF_mapCol _ "opening_date" to_datetime_coerce
        (RowsP_DF_mapCol _ "staff_numbers" staffParse
          (RowsP_DF_mapRows _ _
            (RowsP_DF_mapRows _ _ h4 h5) h6)
          (fun r hr => hKeep "staff_numbers" _ (by decide) r hr))
        (fun r hr => hKeep "opening_date" _ (by decide) r hr)))
    (fun r hr => ?_)
  rcases hr with ⟨⟨hhas, hor⟩, hnn⟩
  have hcc : r.get "country_code" ≠ Cell.null :=
    Row.get_ne_null_of_noNull r "country_code" hnn hhas
  have hval : CCvalid r := by
    rcases hor with hv | hnull
    · exact hv
    · exact absurd hnull hcc
  unfold CCvalid at hval ⊢
  rw [Row.get_mapPair r "country_code"
    (fun c => if c = Cell.str "N/A" then Cell.null else c) (by decide)]
  rcases hval with hv | hv | hv
  · rw [hv]
    exact Or.inl (by decide)
  · rw [hv]
    exact Or.inr (Or.inl (by decide))
  · rw [hv]
    exact Or.inr (Or.inr (by decide))

/-- Concrete store frame with one row whose country_code is "FR". -/
def storeFR : DF :=
  ⟨["index", "address", "lat", "longitude", "locality", "staff_numbers",
    "opening_date", "latitude", "country_code", "continent"],
   [(Cell.num 0,
     [("index", Cell.num 0), ("address", Cell.str "a"), ("lat", Cell.null),
      ("longitude", Cell.num 1), ("locality", Cell.str "l"),
      ("staff_numbers", Cell.str "12"), ("opening_date", Cell.str "2020-01-05"),
      ("latitude", Cell.num 2), ("country_code", Cell.str "FR"),
      ("continent", Cell.str "Europe")])]⟩

set_option maxRecDepth 8000 in
/-- C8: in every clean_store_data output (given the country_code column is
present in each input row) every row's country_code is DE, US or GB; and the
end-to-end scenario: a store table whose single row carries country_code "FR"
cleans to the empty table — the row's country_code is nulled and the row is
dropped. -/
theorem C8_non_DE_US_GB_rows_dropped :
    (∀ df : DF, RowsP df.rows (fun r => r.has "country_code" = true) →
      ∀ p ∈ (clean_store_data df).rows, CCvalid p.2) ∧
    clean_store_data storeFR =
      ⟨["address", "longitude", "locality", "staff_numbers", "opening_date",
        "latitude", "country_code", "continent"], []⟩ :=
  ⟨fun df h => clean_store_country_codes df h, by with_unfolding_all rfl⟩

set_option maxRecDepth 8000 in
/-- Witness for C8: the screening property applied to the concrete frame
storeNullLat, whose rows all carry the country_code column. -/
theorem C8_non_DE_US_GB_rows_dropped_witness :
    ∀ p ∈ (clean_store_data storeNullLat).rows, CCvalid p.2 :=
  C8_non_DE_US_GB_rows_dropped.1 storeNullLat (by
    unfold RowsP
    with_unfolding_all decide)

/-
  Claim C7: US phone validation in clean_user_data.
-/

theorem Row.noNull_removeCol (r : Row) (c : String) (h : r.noNull = true) :
    (r.removeCol c).noNull = true := by
  unfold Row.noNull at h ⊢
  rw [List.all_eq_true] at h ⊢
  intro q hq
  exact h q (List.mem_of_mem_filter hq)

theorem RowsP_clean_dataframe_noNull (df : DF) (key : Option String)
    {P : Row → Prop} (h : RowsP df.rows P)
    (hrep : ∀ r, P r → P (r.map (fun (q : String × Cell) => (q.1, replaceNULLCell q.2))))
    (hidx : ∀ k r, key = some k → P r → P (r.removeCol k)) :
    RowsP (clean_dataframe df key).rows (fun r => P r ∧ r.noNull = true) := by
  unfold clean_dataframe
  dsimp only
  have h3 : RowsP df.replaceNULL.dropDups.dropna.rows
      (fun r => P r ∧ r.noNull = true) := by
    refine RowsP_DF_dropna _ ?_
    refine RowsP_dropDupRows _ ?_
    exact RowsP_DF_mapCells df replaceNULLCell h hrep
  cases key with
  | none => exact h3
  | some k =>
      dsimp only
      split
      · unfold DF.setIndexCol
        refine RowsP_map _ (fun p => p.2.get k) (fun r => r.removeCol k) h3
          (fun r hr => ?_)
        exact ⟨hidx k r rfl hr.1, Row.noNull_removeCol r k hr.2⟩
      · exact h3

/-- Tracking invariant inside clean_user_data: the user_uuid column is present
and holds a string. -/
def UUIDstr (r : Row) : Prop :=
  r.has "user_uuid" = true ∧ ∃ s, r.get "user_uuid" = Cell.str s

theorem UUIDstr_set (r : Row) (c : String) (v : Cell) (hc : c ≠ "user_uuid")
    (hr : UUIDstr r) : UUIDstr (r.set c v) := by
  rcases hr with ⟨hh, s, hs⟩
  have hne : "user_uuid" ≠ c := fun h => hc h.symm
  refine ⟨Row.has_of_set_has r c "user_uuid" v hh, s, ?_⟩
  rw [Row.get_set_ne r c "user_uuid" v hne]
  exact hs

theorem filterRowsE_ok_of_all (df : DF) (pred : Row → Except String Bool)
    (h : ∀ p ∈ df.rows, ∃ b, pred p.2 = Except.ok b) :
    ∃ out, df.filterRowsE pred = Except.ok out := by
  unfold DF.filterRowsE
  rcases filterME_ok_of_all pred df.rows h with ⟨l2, hl2⟩
  rw [hl2]
  exact ⟨_, rfl⟩

theorem clean_user_data_ok (df : DF)
    (h : RowsP df.rows (fun r => ∃ s, r.get "user_uuid" = Cell.str s)) :
    ∃ out, clean_user_data df = Except.ok out := by
  have h0 : RowsP df.rows (fun r => r.has "user_uuid" = true ∧
      ((∃ s, r.get "user_uuid" = Cell.str s) ∨ r.get "user_uuid" = Cell.null)) := by
    refine RowsP_weaken _ h (fun r hr => ?_)
    rcases hr with ⟨s, hs⟩
    refine ⟨Row.has_of_get_ne_null r _ ?_, Or.inl ⟨s, hs⟩⟩
    rw [hs]
    exact fun hc => Cell.noConfusion hc
  have h1 : RowsP (clean_dataframe df (some "index")).rows UUIDstr := by
    refine RowsP_weaken _
      (RowsP_clean_dataframe_noNull df (some "index") h0
        (fun r hr => ?_) (fun k r hk hr => ?_)) (fun r hr => ?_)
    · rcases hr with ⟨hh, hor⟩
      refine ⟨by rw [Row.has_mapPair r "user_uuid" replaceNULLCell]; exact hh, ?_⟩
      rw [Row.get_mapPair r "user_uuid" replaceNULLCell rfl]
      rcases hor with ⟨s, hs⟩ | hs
      · rw [hs]
        unfold replaceNULLCell
        by_cases hN : Cell.str s = Cell.str "NULL"
        · rw [if_pos hN]
          exact Or.inr rfl
        · rw [if_neg hN]
          exact Or.inl ⟨s, rfl⟩
      · rw [hs]
        exact Or.inr rfl
    · simp only [Option.some.injEq] at hk
      subst hk
      rcases hr with ⟨hh, hor⟩
      refine ⟨by rw [Row.has_removeCol_ne r "index" "user_uuid" (by decide)]; exact hh, ?_⟩
      rw [Row.get_removeCol_ne r "index" "user_uuid" (by decide)]
      exact hor
    · rcases hr with ⟨⟨hh, hor⟩, hnn⟩
      refine ⟨hh, ?_⟩
      rcases hor with hstr | hnull
      · exact hstr
      · exact absurd hnull (Row.get_ne_null_of_noNull r "user_uuid" hnn hh)
  have hA := RowsP_DF_mapCol (clean_dataframe df (some "index")) "date_of_birth"
    to_datetime_coerce (P := UUIDstr) (Q := UUIDstr) h1
    (fun r hr => UUIDstr_set r _ _ (by decide) hr)
  have hB := RowsP_DF_mapCol _ "join_date" to_datetime_coerce
    (P := UUIDstr) (Q := UUIDstr) hA
    (fun r hr => UUIDstr_set r _ _ (by decide) hr)
  have hC := RowsP_DF_mapRows _ (fun r =>
      if r.get "country" = Cell.str "United Kingdom"
      then r.set "country_code" (Cell.str "GB") else r)
    (P := UUIDstr) (Q := UUIDstr) hB (fun r hr => by
      dsimp only
      by_cases hc : r.get "country" = Cell.str "United Kingdom"
      · rw [if_pos hc]
        exact UUIDstr_set r _ _ (by decide) hr
      · rw [if_neg hc]
        exact hr)
  have hD := RowsP_DF_mapRows _ phoneStepGB (P := UUIDstr) (Q := UUIDstr) hC
    (fun r hr => by
      unfold phoneStepGB
      by_cases hc : r.get "country_code" = Cell.str "GB" ∧
          reFull ukRE (r.get "phone_number").pyStr = false
      · rw [if_pos hc]
        exact UUIDstr_set r _ _ (by decide) hr
      · rw [if_neg hc]
        exact hr)
  have hE := RowsP_DF_mapRows _ phoneStepDE (P := UUIDstr) (Q := UUIDstr) hD
    (fun r hr => by
      unfold phoneStepDE
      by_cases hc : r.get "country_code" = Cell.str "DE" ∧
          reMatch deRE (r.get "phone_number").pyStr = false
      · rw [if_pos hc]
        exact UUIDstr_set r _ _ (by decide) hr
      · rw [if_neg hc]
        exact hr)
  have h3 := RowsP_DF_mapRows _ phoneStepUS (P := UUIDstr) (Q := UUIDstr) hE
    (fun r hr => by
      unfold phoneStepUS
      by_cases hc : r.get "country_code" = Cell.str "US" ∧
          reMatch usRE (r.get "phone_number").pyStr = false
      · rw [if_pos hc]
        exact UUIDstr_set r _ _ (by decide) hr
      · rw [if_neg hc]
        exact hr)
  have hok := filterRowsE_ok_of_all _ (fun r => is_valid_uuid_cell (r.get "user_uuid"))
    (fun p hp => by
      dsimp only
      rcases h3 p hp with ⟨_, s, hs⟩
      rw [hs]
      exact ⟨is_valid_uuid s, rfl⟩)
  rcases hok with ⟨out2, hl2⟩
  unfold clean_user_data
  dsimp only
  rw [hl2]
  exact ⟨_, rfl⟩

/-- Concrete user frame identical to userGood except that the US phone number
is the non-matching "12345". -/
def userBadPhone : DF :=
  ⟨["index", "date_of_birth", "join_date", "country", "country_code",
    "phone_number", "user_uuid"],
   [(Cell.num 0,
     [("index", Cell.num 1), ("date_of_birth", Cell.str "1990-01-02"),
      ("join_date", Cell.str "2000-03-04"), ("country", Cell.str "United States"),
      ("country_code", Cell.str "US"), ("phone_number", Cell.str "12345"),
      ("user_uuid", Cell.str "00000000-0000-4000-8000-000000000000")])]⟩

/-- The empty table clean_user_data returns on userBadPhone. -/
def userBadPhoneOut : DF :=
  ⟨["date_of_birth", "join_date", "country", "country_code", "phone_number",
    "user_uuid"], []⟩

set_option maxRecDepth 8000 in
/-- C7: clean_user_data returns (rather than raising) on any frame whose
user_uuid cells are strings, however malformed the phone numbers; the US
phone rule leaves a row with country_code "US" and a pattern-matching phone
number unchanged and nulls a non-matching one; concretely, the row with
"(123) 456-7890" is retained with its phone number intact and the row with
"12345" is absent from the output. -/
theorem C7_us_phone_validation :
    (∀ df : DF, RowsP df.rows (fun r => ∃ s, r.get "user_uuid" = Cell.str s) →
      ∃ out, clean_user_data df = Except.ok out) ∧
    (∀ r : Row, r.get "country_code" = Cell.str "US" →
      reMatch usRE (r.get "phone_number").pyStr = true → phoneStepUS r = r) ∧
    (∀ r : Row, r.get "country_code" = Cell.str "US" →
      reMatch usRE (r.get "phone_number").pyStr = false →
      phoneStepUS r = r.set "phone_number" Cell.null) ∧
    clean_user_data userGood = Except.ok userGoodOut ∧
    clean_user_data userBadPhone = Except.ok userBadPhoneOut := by
  refine ⟨clean_user_data_ok, ?_, ?_, ?_, ?_⟩
  · intro r hcc hm
    unfold phoneStepUS
    rw [if_neg]
    intro hc
    rw [hm] at hc
    exact Bool.noConfusion hc.2
  · intro r hcc hm
    unfold phoneStepUS
    rw [if_pos ⟨hcc, hm⟩]
  · with_unfolding_all rfl
  · with_unfolding_all rfl

set_option maxRecDepth 8000 in
/-- Witness for C7: the no-raise rule applied to the concrete frame
userBadPhone (malformed US phone, string user_uuid), and the US retention and
nulling rules applied to concrete rows. -/
theorem C7_us_phone_validation_witness :
    (∃ out, clean_user_data userBadPhone = Except.ok out) ∧
    phoneStepUS [("country_code", Cell.str "US"),
      ("phone_number", Cell.str "(123) 456-7890")] =
      [("country_code", Cell.str "US"), ("phone_number", Cell.str "(123) 456-7890")] ∧
    phoneStepUS [("country_code", Cell.str "US"), ("phone_number", Cell.str "12345")] =
      Row.set [("country_code", Cell.str "US"), ("phone_number", Cell.str "12345")]
        "phone_number" Cell.null :=
  ⟨C7_us_phone_validation.1 userBadPhone (by
      unfold RowsP
      intro p hp
      simp only [userBadPhone, List.mem_singleton] at hp
      subst hp
      exact ⟨"00000000-0000-4000-8000-000000000000", by with_unfolding_all rfl⟩),
   C7_us_phone_validation.2.1 _ (by with_unfolding_all rfl) (by with_unfolding_all rfl),
   C7_us_phone_validation.2.2.1 _ (by with_unfolding_all rfl) (by with_unfolding_all rfl)⟩

/-
  Claim C9: the still_available column of clean_products_data.
-/

theorem products_tail_bool (d : DF) :
    RowsP ((((d.mapCol "still_available" stillAvailConv).mapCol "date_added"
        to_datetime_coerce).addColByRow "weight_class"
        (fun r => Cell.str (weightClass (r.get "weight_kg")))).filterRows
        (fun r => reFull uuidShapeRE (r.get "uuid").pyStr)).rows
      (fun r => ∃ b, r.get "still_available" = Cell.bool b) := by
  refine RowsP_DF_filterRows _ _ ?_
  refine RowsP_DF_addColByRow _ _ _ (P := fun r => ∃ b,
    r.get "still_available" = Cell.bool b) ?_ (fun r hr => ?_)
  · refine RowsP_DF_mapCol _ _ _ (P := fun r => ∃ b,
      r.get "still_available" = Cell.bool b) ?_ (fun r hr => ?_)
    · refine RowsP_DF_mapCol _ _ _ (P := fun _ => True) (fun p hp => trivial)
        (fun r _ => ?_)
      rw [Row.get_set_self]
      exact ⟨_, rfl⟩
    · rcases hr with ⟨b, hb⟩
      refine ⟨b, ?_⟩
      rw [Row.get_set_ne r "date_added" "still_available" _ (by decide)]
      exact hb
  · rcases hr with ⟨b, hb⟩
    refine ⟨b, ?_⟩
    rw [Row.get_set_ne r "weight_class" "still_available" _ (by decide)]
    exact hb

/-- C9: in clean_products_data's output the still_available column always
holds a Boolean, and the cell conversion is equality with the exact misspelled
sentinel "Still_avaliable": that sentinel maps to true and every other value,
including the correctly spelled "Still_available", maps to false. -/
theorem C9_still_available_sentinel :
    (∀ df : DF, "removed" ∈ df.cols →
      ∀ p ∈ (clean_products_data df).rows,
        ∃ b, p.2.get "still_available" = Cell.bool b) ∧
    (∀ c : Cell, stillAvailConv c =
      Cell.bool (decide (c = Cell.str "Still_avaliable"))) ∧
    stillAvailConv (Cell.str "Still_avaliable") = Cell.bool true ∧
    stillAvailConv (Cell.str "Still_available") = Cell.bool false ∧
    (∀ c : Cell, c ≠ Cell.str "Still_avaliable" →
      stillAvailConv c = Cell.bool false) := by
  refine ⟨?_, fun c => rfl, by with_unfolding_all rfl, by with_unfolding_all rfl, ?_⟩
  · intro df _
    unfold clean_products_data
    dsimp only
    exact products_tail_bool _
  · intro c hc
    unfold stillAvailConv
    simp [hc]

set_option maxRecDepth 8000 in
/-- Witness for C9: the Boolean-column property applied to the concrete frame
prodBadPrice (which carries the removed column), and the cell rule applied to
a concrete non-sentinel value. -/
theorem C9_still_available_sentinel_witness :
    (∀ p ∈ (clean_products_data prodBadPrice).rows,
      ∃ b, p.2.get "still_available" = Cell.bool b) ∧
    stillAvailConv (Cell.str "Removed") = Cell.bool false :=
  ⟨C9_still_available_sentinel.1 prodBadPrice (by decide),
   C9_still_available_sentinel.2.2.2.2 (Cell.str "Removed") (by decide)⟩

/-
  Claim C10: exception behaviour of is_valid_uuid on non-string cells.
-/

/-- Concrete user frame whose user_uuid cell is the number 5: it survives the
initial null-drop and reaches the UUID filter, which raises. -/
def userNumUuid : DF :=
  ⟨["index", "date_of_birth", "join_date", "country", "country_code",
    "phone_number", "user_uuid"],
   [(Cell.num 0,
     [("index", Cell.num 1), ("date_of_birth", Cell.str "1990-01-02"),
      ("join_date", Cell.str "2000-03-04"), ("country", Cell.str "United States"),
      ("country_code", Cell.str "US"), ("phone_number", Cell.str "(123) 456-7890"),
      ("user_uuid", Cell.num 5)])]⟩

/-- Concrete orders frame whose user_uuid cell is the number 5. -/
def ordersNumUuid : DF :=
  ⟨["index", "level_0", "user_uuid", "product_quantity"],
   [(Cell.num 0,
     [("index", Cell.num 0), ("level_0", Cell.num 0),
      ("user_uuid", Cell.num 5), ("product_quantity", Cell.num 2)])]⟩

/-- Concrete user frame whose user_uuid cell is null (NaN/None): the initial
null-drop removes the row before the UUID filter ever sees it. -/
def userNaNUuid : DF :=
  ⟨["index", "date_of_birth", "join_date", "country", "country_code",
    "phone_number", "user_uuid"],
   [(Cell.num 0,
     [("index", Cell.num 1), ("date_of_birth", Cell.str "1990-01-02"),
      ("join_date", Cell.str "2000-03-04"), ("country", Cell.str "United States"),
      ("country_code", Cell.str "US"), ("phone_number", Cell.str "(123) 456-7890"),
      ("user_uuid", Cell.null)])]⟩

set_option maxRecDepth 8000 in
/-- C10 (counterexample): a table containing a non-string (null, i.e.
NaN/None) user_uuid cell does NOT make clean_user_data raise — the row is
dropped by the null-drop inside the row-cleaning utility before the UUID
filter runs, and cleaning returns an ordinary (here empty) table. -/
theorem C10_nan_uuid_does_not_raise :
    clean_user_data userNaNUuid =
      Except.ok ⟨["date_of_birth", "join_date", "country", "country_code",
        "phone_number", "user_uuid"], []⟩ := by
  with_unfolding_all rfl

set_option maxRecDepth 8000 in
/-- C10 (amended): is_valid_uuid is total over strings (the parse ValueError
is caught and a Boolean comes back), while on a numeric cell the parse raises
AttributeError, which is not caught; a numeric user_uuid survives the initial
null-drop and reaches the filter, so clean_user_data and clean_orders_data
raise on tables containing a numeric user_uuid cell — whereas None/NaN cells
are dropped by the earlier null-drop and cause no raise. -/
theorem C10_uuid_filter_exceptions :
    (∀ s : String, is_valid_uuid_cell (Cell.str s) = Except.ok (is_valid_uuid s)) ∧
    (∀ q : ℚ, is_valid_uuid_cell (Cell.num q) = Except.error "AttributeError") ∧
    clean_user_data userNumUuid = Except.error "AttributeError" ∧
    clean_orders_data ordersNumUuid = Except.error "AttributeError" :=
  ⟨fun s => rfl, fun q => rfl,
   by with_unfolding_all rfl, by with_unfolding_all rfl⟩
